import Mathlib

/-!
Verification of the temporal signal intelligence core of the Sentinel
repository (`backend/app`): snapshot storage and point-in-time queries,
change detection, conflict detection, regime classification, signal
scoring, pillar-weighted composite aggregation, and alert evaluation.

Python dates are modelled as integers (day numbers), Python floats as
rationals, and Python dicts as insertion-ordered association lists whose
insert operation overwrites the value of an existing key in place and
appends new keys at the end (CPython dict semantics).
-/

namespace Sentinel

/-! ## Data model (backend/app/models.py) -/

/-- Allowed values for signal direction (`models.Direction`). -/
inductive Direction where
  | BULLISH
  | BEARISH
  | NEUTRAL
  deriving Repr, DecidableEq

/-- String value of a `Direction`, as in the Python `str, Enum`. -/
def Direction.value : Direction → String
  | .BULLISH => "Bullish"
  | .BEARISH => "Bearish"
  | .NEUTRAL => "Neutral"

/-- Allowed values for signal confidence (`models.Confidence`). -/
inductive Confidence where
  | LOW
  | MEDIUM
  | HIGH
  deriving Repr, DecidableEq

/-- String value of a `Confidence`, as in the Python `str, Enum`. -/
def Confidence.value : Confidence → String
  | .LOW => "Low"
  | .MEDIUM => "Medium"
  | .HIGH => "High"

/-- Expected signal lifespan (`models.ValidityWindow`). -/
inductive ValidityWindow where
  | INTRADAY
  | DAILY
  | WEEKLY
  | STRUCTURAL
  deriving Repr, DecidableEq

/-- Signal type classification (`models.SignalType`). -/
inductive SignalType where
  | STRUCTURAL
  | TACTICAL
  deriving Repr, DecidableEq

/-- A market signal (`models.Signal`).  Fields follow the pydantic model.
The `score` field is absent from the copy of `models.py` in the source tree
but is read and written throughout the repository (`db_service.signal_to_db`,
`db_to_signal`, `signal_analysis`, `routes`), and the database column that
backs it is declared with the comment "Optional score (-1 to +1)".
Modelled from the spec: `score ∈ [-1,1]` is part of the Signal data model
(spec §3), carried here as an optional rational. -/
structure Signal where
  signal_id : String
  version : String
  market : String
  category : String
  name : String
  direction : Direction
  confidence : Confidence
  last_updated : Int
  data_asof : Int
  explanation : String
  definition : String
  source : String
  key_driver : String
  validity_window : ValidityWindow
  decay_behavior : String
  related_signal_ids : List String
  related_markets : List String
  signal_type : SignalType
  score : Option ℚ
  deriving Repr, DecidableEq

/-- Signal age in days (`models.Signal.age_days`), relative to an explicit
`today` (the Python property calls `date.today()`). -/
def ageDays (today : Int) (s : Signal) : Int :=
  today - s.last_updated

/-- Staleness of a signal by validity window (`models.Signal.is_stale`). -/
def isStale (today : Int) (s : Signal) : Bool :=
  let age := ageDays today s
  match s.validity_window with
  | .INTRADAY => age > 1
  | .DAILY => age > 2
  | .WEEKLY => age > 8
  | .STRUCTURAL => age > 30

/-- Historical snapshot of a signal (`models.SignalSnapshot`). -/
structure SignalSnapshot where
  signal_id : String
  snapshot_date : Int
  signal : Signal
  deriving Repr, DecidableEq

/-- Types of signal conflicts (`models.ConflictType`). -/
inductive ConflictType where
  | OPPOSITE_DIRECTION
  | STRUCTURAL_TACTICAL_MISMATCH
  | TIMEFRAME_MISMATCH
  deriving Repr, DecidableEq

/-- Conflict between signals (`models.Conflict`). -/
structure Conflict where
  conflicting_signals : List String
  conflict_type : ConflictType
  description : String
  market : Option String
  timeframe_mismatch : Option String
  structural_vs_transient : Option String
  deriving Repr, DecidableEq

/-- Types of macro regimes (`models.RegimeType`). -/
inductive RegimeType where
  | INFLATIONARY_GROWTH
  | RISK_OFF
  | TIGHTENING
  | DISINFLATIONARY_GROWTH
  | UNCERTAIN
  deriving Repr, DecidableEq

/-- Macro regime classification (`models.Regime`).  `indicators` and
`impact` are string-keyed dicts in the Python model. -/
structure Regime where
  regime_type : RegimeType
  description : String
  indicators : List (String × String)
  impact : List (String × String)
  detected_date : Int
  confidence : String
  deriving Repr, DecidableEq

/-! ## Dict helpers

Python dicts are modelled as association lists: `dictInsert` overwrites the
value at an existing key in place and appends a new key at the end, which is
exactly CPython's dict update semantics; `dictLookup` returns the value at
the first (hence, for well-formed dicts, only) occurrence of the key. -/

/-- `d[k]`-style lookup returning `none` for a missing key. -/
def dictLookup {κ α : Type} [DecidableEq κ] : List (κ × α) → κ → Option α
  | [], _ => none
  | (k', v) :: t, k => if k' = k then some v else dictLookup t k

/-- `d[k] = v`-style insert: overwrite in place, or append a new key. -/
def dictInsert {κ α : Type} [DecidableEq κ] : List (κ × α) → κ → α → List (κ × α)
  | [], k, v => [(k, v)]
  | (k', v') :: t, k, v =>
      if k' = k then (k, v) :: t else (k', v') :: dictInsert t k v

/-- `d.get(k, dflt)`-style lookup with a default. -/
def dictGetD {κ α : Type} [DecidableEq κ] (d : List (κ × α)) (k : κ) (dflt : α) : α :=
  (dictLookup d k).getD dflt

/-! ## ScoringEngine (backend/app/scoring.py) -/

/-- `scoring.calculate_signal_score`: direction value times confidence
multiplier, clamped to [-1, 1]. -/
def calculateSignalScore (signal : Signal) : ℚ :=
  let direction_value : ℚ :=
    match signal.direction with
    | .BULLISH => 1
    | .BEARISH => -1
    | .NEUTRAL => 0
  let confidence_multiplier : ℚ :=
    match signal.confidence with
    | .HIGH => 1
    | .MEDIUM => 3/5
    | .LOW => 3/10
  let score := direction_value * confidence_multiplier
  max (-1) (min 1 score)

/-! ## SnapshotStore (backend/app/snapshot_storage.py)

The module-level dict `_snapshots : (signal_id, date) → SignalSnapshot` is
passed explicitly as a `Store`; the upstream provider `get_all_signals()` is
passed explicitly as a list of current signals. -/

/-- The in-memory snapshot table `_snapshots`. -/
abbrev Store := List ((String × Int) × SignalSnapshot)

/-- `snapshot_storage.create_daily_snapshot`: capture every current signal
under `snapshot_date`, upserting into the store; returns the updated store
together with the list of created snapshots (the Python return value). -/
def createDailySnapshot (store : Store) (signals : List Signal)
    (snapshot_date : Int) : Store × List SignalSnapshot :=
  signals.foldl
    (fun acc signal =>
      let snapshot : SignalSnapshot :=
        ⟨signal.signal_id, snapshot_date, signal⟩
      (dictInsert acc.1 (signal.signal_id, snapshot_date) snapshot,
       acc.2 ++ [snapshot]))
    (store, [])

/-- The store effect of one iteration of the `create_daily_snapshot` loop:
upsert the snapshot of `s` under key `(s.signal_id, d)`. -/
def snapInsert (d : Int) (acc : Store) (s : Signal) : Store :=
  dictInsert acc (s.signal_id, d) ⟨s.signal_id, d, s⟩

/-- A sequence of `create_daily_snapshot` calls (each with the signal list
the provider returned at that moment and the requested date) run against an
initially empty store. -/
def runSnapshots (ops : List (List Signal × Int)) : Store :=
  ops.foldl (fun st op => (createDailySnapshot st op.1 op.2).1) []

/-- Fold body of `get_signals_at_date`: keep, per signal id, only the latest
snapshot dated on or before `target_date` (Python: `if signal_id not in
signal_snapshots or snap_date > signal_snapshots[signal_id].snapshot_date`). -/
def bestSnapshotStep (target_date : Int)
    (acc : List (String × SignalSnapshot))
    (e : (String × Int) × SignalSnapshot) : List (String × SignalSnapshot) :=
  let signal_id := e.1.1
  let snap_date := e.1.2
  let snapshot := e.2
  if snap_date ≤ target_date then
    match dictLookup acc signal_id with
    | none => dictInsert acc signal_id snapshot
    | some prev =>
        if snap_date > prev.snapshot_date then dictInsert acc signal_id snapshot
        else acc
  else acc

/-- `snapshot_storage.get_signals_at_date`: all signals as they were at
`target_date`; falls back to the live current signal set when no snapshot
at or before that date exists. -/
def getSignalsAtDate (store : Store) (currentSignals : List Signal)
    (target_date : Int) : List Signal :=
  let signal_snapshots := store.foldl (bestSnapshotStep target_date) []
  let signals := signal_snapshots.map (fun p => p.2.signal)
  if signals.isEmpty then currentSignals else signals

/-- Entry of the `new_signals` bucket of `get_changes_since`. -/
structure NewSignalEntry where
  signal_id : String
  signal_name : String
  market : String
  direction : String
  confidence : String
  deriving Repr, DecidableEq

/-- Entry of the `changed_direction` bucket of `get_changes_since`. -/
structure DirectionChangeEntry where
  signal_id : String
  signal_name : String
  market : String
  old_direction : String
  new_direction : String
  deriving Repr, DecidableEq

/-- Entry of the `changed_confidence` bucket of `get_changes_since`. -/
structure ConfidenceChangeEntry where
  signal_id : String
  signal_name : String
  market : String
  old_confidence : String
  new_confidence : String
  deriving Repr, DecidableEq

/-- Entry of the `removed_signals` bucket of `get_changes_since`. -/
structure RemovedSignalEntry where
  signal_id : String
  signal_name : String
  market : String
  deriving Repr, DecidableEq

/-- The four change buckets returned by `get_changes_since`. -/
structure Changes where
  new_signals : List NewSignalEntry
  changed_direction : List DirectionChangeEntry
  changed_confidence : List ConfidenceChangeEntry
  removed_signals : List RemovedSignalEntry
  deriving Repr, DecidableEq

/-- The dict `{s.signal_id: s for s in get_all_signals()}`. -/
def currentSignalMap (currentSignals : List Signal) : List (String × Signal) :=
  currentSignals.foldl (fun acc s => dictInsert acc s.signal_id s) []

/-- The dict of signals whose snapshot date equals `since_date` exactly
(the `snap_date == since_date` loop of `get_changes_since`). -/
def historicalSignalMap (store : Store) (since_date : Int) :
    List (String × Signal) :=
  store.foldl
    (fun acc e => if e.1.2 = since_date then dictInsert acc e.1.1 e.2.signal else acc)
    []

/-- `snapshot_storage.get_changes_since`: diff the current signal set against
the snapshots captured exactly on `since_date`.  The four Python loops that
conditionally append to the buckets are rendered as `filterMap`s over the
same dicts in the same order. -/
def getChangesSince (store : Store) (currentSignals : List Signal)
    (since_date : Int) : Changes :=
  let current_signals := currentSignalMap currentSignals
  let historical_signals := historicalSignalMap store since_date
  let new_signals : List NewSignalEntry :=
    current_signals.filterMap (fun p =>
      match dictLookup historical_signals p.1 with
      | none => some ⟨p.1, p.2.name, p.2.market, p.2.direction.value, p.2.confidence.value⟩
      | some _ => none)
  let changed_direction : List DirectionChangeEntry :=
    current_signals.filterMap (fun p =>
      match dictLookup historical_signals p.1 with
      | some historical_signal =>
          if p.2.direction ≠ historical_signal.direction then
            some ⟨p.1, p.2.name, p.2.market,
                  historical_signal.direction.value, p.2.direction.value⟩
          else none
      | none => none)
  let changed_confidence : List ConfidenceChangeEntry :=
    current_signals.filterMap (fun p =>
      match dictLookup historical_signals p.1 with
      | some historical_signal =>
          if p.2.confidence ≠ historical_signal.confidence then
            some ⟨p.1, p.2.name, p.2.market,
                  historical_signal.confidence.value, p.2.confidence.value⟩
          else none
      | none => none)
  let removed_signals : List RemovedSignalEntry :=
    historical_signals.filterMap (fun p =>
      match dictLookup current_signals p.1 with
      | none => some ⟨p.1, p.2.name, p.2.market⟩
      | some _ => none)
  ⟨new_signals, changed_direction, changed_confidence, removed_signals⟩

/-! ## Specification predicates for the snapshot claims -/

/-- Well-formed store: each snapshot record carries the signal id and date it
is keyed under (true of every store built by `create_daily_snapshot`). -/
def StoreWF (store : Store) : Prop :=
  ∀ e ∈ store, e.2.signal_id = e.1.1 ∧ e.2.snapshot_date = e.1.2

/-- `snap` is the snapshot of identity `sid` with the latest date at or
before `target` in the store. -/
def IsLatest (store : Store) (target : Int) (sid : String)
    (snap : SignalSnapshot) : Prop :=
  ∃ d, ((sid, d), snap) ∈ store ∧ d ≤ target ∧
    ∀ d' snap', ((sid, d'), snap') ∈ store → d' ≤ target → d' ≤ d

/-! ## ConflictDetector (backend/app/conflict_detector.py) -/

/-- One step of building the Python `by_market` dict: append the signal to
its key's group (`by_market[key].append(signal)`), creating the group on
first occurrence.  Insertion order of keys and of group members matches the
CPython dict/list behaviour. -/
def groupInsert (key : Signal → String)
    (acc : List (String × List Signal)) (s : Signal) :
    List (String × List Signal) :=
  match acc with
  | [] => [(key s, [s])]
  | (m, g) :: t =>
      if m = key s then (m, g ++ [s]) :: t else (m, g) :: groupInsert key t s

/-- Group a signal list by a string key (used for `by_market` in the
conflict detector and `by_pillar` in the composite aggregator). -/
def groupByKey (key : Signal → String) (signals : List Signal) :
    List (String × List Signal) :=
  signals.foldl (groupInsert key) []

/-- Rule 1 of `detect_conflicts` for one market group: opposite directions
with high confidence. -/
def oppositeDirectionRule (p : String × List Signal) : Option Conflict :=
  let market := p.1
  let market_signals := p.2
  if market_signals.length < 2 then none else
  let bullish_high := market_signals.filter
    (fun s => decide (s.direction = Direction.BULLISH) &&
      decide (s.confidence.value = "High"))
  let bearish_high := market_signals.filter
    (fun s => decide (s.direction = Direction.BEARISH) &&
      decide (s.confidence.value = "High"))
  if bullish_high ≠ [] ∧ bearish_high ≠ [] then
    some
      { conflicting_signals := (bullish_high ++ bearish_high).map Signal.signal_id
        conflict_type := ConflictType.OPPOSITE_DIRECTION
        description := "High confidence signals in " ++ market ++
          " show opposite directions: " ++ toString bullish_high.length ++
          " bullish vs " ++ toString bearish_high.length ++ " bearish"
        market := some market
        timeframe_mismatch := none
        structural_vs_transient := none }
  else none

/-- Rule 2 of `detect_conflicts` for one market group: structural vs
tactical mismatch; the structural-bullish branch wins when both hold. -/
def structuralTacticalRule (p : String × List Signal) : Option Conflict :=
  let market := p.1
  let market_signals := p.2
  if market_signals.length < 2 then none else
  let structural_bullish := market_signals.filter
    (fun s => decide (s.signal_type = SignalType.STRUCTURAL) &&
      decide (s.direction = Direction.BULLISH))
  let tactical_bearish := market_signals.filter
    (fun s => decide (s.signal_type = SignalType.TACTICAL) &&
      decide (s.direction = Direction.BEARISH))
  let structural_bearish := market_signals.filter
    (fun s => decide (s.signal_type = SignalType.STRUCTURAL) &&
      decide (s.direction = Direction.BEARISH))
  let tactical_bullish := market_signals.filter
    (fun s => decide (s.signal_type = SignalType.TACTICAL) &&
      decide (s.direction = Direction.BULLISH))
  if (structural_bullish ≠ [] ∧ tactical_bearish ≠ []) ∨
     (structural_bearish ≠ [] ∧ tactical_bullish ≠ []) then
    let pick := if structural_bullish ≠ [] ∧ tactical_bearish ≠ [] then
        ((structural_bullish ++ tactical_bearish).map Signal.signal_id,
         "Structural bullish forces conflict with tactical bearish signals")
      else
        ((structural_bearish ++ tactical_bullish).map Signal.signal_id,
         "Structural bearish forces conflict with tactical bullish signals")
    some
      { conflicting_signals := pick.1
        conflict_type := ConflictType.STRUCTURAL_TACTICAL_MISMATCH
        description := "Structural vs tactical mismatch in " ++ market ++ ": " ++ pick.2
        market := some market
        timeframe_mismatch := none
        structural_vs_transient := some pick.2 }
  else none

/-- Rule 3 of `detect_conflicts` for one market group: timeframe mismatch
between short-term (intraday/daily) and structural validity windows.  When
it fires, the conflict names every short-term and structural signal of the
market (`short_term + structural`). -/
def timeframeMismatchRule (p : String × List Signal) : Option Conflict :=
  let market := p.1
  let market_signals := p.2
  if market_signals.length < 2 then none else
  let short_term := market_signals.filter
    (fun s => decide (s.validity_window = ValidityWindow.INTRADAY) ||
      decide (s.validity_window = ValidityWindow.DAILY))
  let structural := market_signals.filter
    (fun s => decide (s.validity_window = ValidityWindow.STRUCTURAL))
  if short_term ≠ [] ∧ structural ≠ [] then
    let short_bullish := short_term.filter (fun s => decide (s.direction = Direction.BULLISH))
    let short_bearish := short_term.filter (fun s => decide (s.direction = Direction.BEARISH))
    let struct_bullish := structural.filter (fun s => decide (s.direction = Direction.BULLISH))
    let struct_bearish := structural.filter (fun s => decide (s.direction = Direction.BEARISH))
    if (short_bullish ≠ [] ∧ struct_bearish ≠ []) ∨
       (short_bearish ≠ [] ∧ struct_bullish ≠ []) then
      let mismatch_desc := if short_bullish ≠ [] ∧ struct_bearish ≠ [] then
          "Short-term bullish signals conflict with structural bearish trend"
        else
          "Short-term bearish signals conflict with structural bullish trend"
      some
        { conflicting_signals := (short_term ++ structural).map Signal.signal_id
          conflict_type := ConflictType.TIMEFRAME_MISMATCH
          description := "Timeframe mismatch in " ++ market ++ ": " ++ mismatch_desc
          market := some market
          timeframe_mismatch := some mismatch_desc
          structural_vs_transient := none }
    else none
  else none

/-- `conflict_detector.detect_conflicts`: all three rules over the signals
grouped by market; conflicts are emitted rule by rule (the three Python
loops run one after the other), each in market insertion order. -/
def detectConflicts (signals : List Signal) : List Conflict :=
  let by_market := groupByKey (fun s => s.market) signals
  by_market.filterMap oppositeDirectionRule ++
  by_market.filterMap structuralTacticalRule ++
  by_market.filterMap timeframeMismatchRule

/-! ## RegimeClassifier (backend/app/regime_detector.py) -/

/-- Whether the character list `t` starts with `pat`. -/
def charsStartWith : List Char → List Char → Bool
  | _, [] => true
  | [], _ :: _ => false
  | a :: s, b :: t => a = b && charsStartWith s t

/-- Whether `pat` occurs as a contiguous sublist of `s`. -/
def charsContain (s pat : List Char) : Bool :=
  match s with
  | [] => pat.isEmpty
  | _ :: t => charsStartWith s pat || charsContain t pat

/-- Python's substring test `pat in s` for strings. -/
def strContains (s pat : String) : Bool :=
  charsContain s.data pat.data

/-- Python's `str.lower`. -/
def strLower (s : String) : String :=
  ⟨s.data.map Char.toLower⟩

/-- USD bucket state of `detect_regime` (`usd_strength`): bullish takes
precedence over bearish over mixed; empty bucket is "unknown". -/
def usdStrength (macro_signals : List Signal) : String :=
  let usd_signals := macro_signals.filter
    (fun s => strContains s.name "USD" || strContains s.name "DXY")
  if usd_signals ≠ [] then
    let usd_directions := usd_signals.map Signal.direction
    if Direction.BULLISH ∈ usd_directions then "strong"
    else if Direction.BEARISH ∈ usd_directions then "weak"
    else "mixed"
  else "unknown"

/-- Rates bucket state of `detect_regime` (`rates_direction`). -/
def ratesDirection (macro_signals : List Signal) : String :=
  let rates_signals := macro_signals.filter
    (fun s => strContains (strLower s.name) "rate" ||
              strContains (strLower s.name) "yield" ||
              strContains s.name "10Y")
  if rates_signals ≠ [] then
    let rates_directions := rates_signals.map Signal.direction
    if Direction.BULLISH ∈ rates_directions then "rising"
    else if Direction.BEARISH ∈ rates_directions then "falling"
    else "stable"
  else "unknown"

/-- Growth bucket state of `detect_regime` (`growth_strength`). -/
def growthStrength (macro_signals : List Signal) : String :=
  let growth_signals := macro_signals.filter
    (fun s => strContains (strLower s.name) "growth" ||
              strContains (strLower s.name) "copper" ||
              strContains (strLower s.name) "equity")
  if growth_signals ≠ [] then
    let growth_directions := growth_signals.map Signal.direction
    if Direction.BULLISH ∈ growth_directions then "strong"
    else if Direction.BEARISH ∈ growth_directions then "weak"
    else "mixed"
  else "unknown"

/-- `regime_detector.detect_regime` on an explicit signal list (the Python
`signals=None` default delegates to `get_all_signals()`); `today` stands for
`date.today()` in `detected_date`. -/
def detectRegime (today : Int) (signals : List Signal) : Regime :=
  let macro_signals := signals.filter (fun s => decide (s.category = "Macro"))
  if macro_signals = [] then
    { regime_type := RegimeType.UNCERTAIN
      description := "Unable to classify regime - no macro signals available"
      indicators := []
      impact := []
      detected_date := today
      confidence := "Low" }
  else
  let usd_strength := usdStrength macro_signals
  let rates_direction := ratesDirection macro_signals
  let growth_strength := growthStrength macro_signals
  let indicators := [("USD", usd_strength), ("Rates", rates_direction),
                     ("Growth", growth_strength)]
  if usd_strength = "weak" ∧ rates_direction = "rising" ∧ growth_strength = "strong" then
    { regime_type := RegimeType.INFLATIONARY_GROWTH
      description := "Inflationary growth regime: Weak USD, rising rates, and strong growth suggest commodities should perform well, especially energy and industrial metals."
      indicators := indicators
      impact := [("energy", "Bullish - strong demand and weak USD support prices"),
                 ("metals", "Bullish - industrial metals benefit from growth, precious metals benefit from inflation"),
                 ("ags", "Mixed - strong demand but potential cost pressures")]
      detected_date := today
      confidence := if ∀ p ∈ indicators, p.2 ≠ "unknown" then "High" else "Medium" }
  else if usd_strength = "strong" ∧ rates_direction = "falling" ∧ growth_strength = "weak" then
    { regime_type := RegimeType.RISK_OFF
      description := "Risk-off regime: Strong USD, falling rates, and weak growth suggest defensive positioning. Precious metals may outperform, while industrial commodities face headwinds."
      indicators := indicators
      impact := [("energy", "Bearish - weak demand and strong USD pressure prices"),
                 ("metals", "Mixed - precious metals benefit from safe-haven flows, industrial metals suffer"),
                 ("ags", "Bearish - weak demand and strong USD pressure prices")]
      detected_date := today
      confidence := if ∀ p ∈ indicators, p.2 ≠ "unknown" then "High" else "Medium" }
  else if usd_strength = "strong" ∧ rates_direction = "rising" ∧
          (growth_strength = "mixed" ∨ growth_strength = "unknown") then
    { regime_type := RegimeType.TIGHTENING
      description := "Tightening regime: Strong USD and rising rates suggest monetary tightening. Commodities face headwinds from stronger dollar and higher financing costs."
      indicators := indicators
      impact := [("energy", "Bearish - strong USD and higher rates pressure prices"),
                 ("metals", "Bearish - strong USD and higher rates pressure prices"),
                 ("ags", "Bearish - strong USD and higher rates pressure prices")]
      detected_date := today
      confidence := if usd_strength ≠ "unknown" ∧ rates_direction ≠ "unknown" then "High" else "Medium" }
  else if (usd_strength = "mixed" ∨ usd_strength = "unknown") ∧
          rates_direction = "stable" ∧ growth_strength = "strong" then
    { regime_type := RegimeType.DISINFLATIONARY_GROWTH
      description := "Disinflationary growth regime: Strong growth with stable rates suggests healthy expansion without inflation pressures. Commodities benefit from demand but face less inflation support."
      indicators := indicators
      impact := [("energy", "Bullish - strong demand supports prices"),
                 ("metals", "Bullish - industrial metals benefit from growth"),
                 ("ags", "Bullish - strong demand supports prices")]
      detected_date := today
      confidence := if growth_strength = "strong" ∧ rates_direction = "stable" then "High" else "Medium" }
  else
    { regime_type := RegimeType.UNCERTAIN
      description := "Uncertain regime: Signal patterns do not clearly match any defined regime classification."
      indicators := indicators
      impact := [("energy", "Uncertain - mixed signals"),
                 ("metals", "Uncertain - mixed signals"),
                 ("ags", "Uncertain - mixed signals")]
      detected_date := today
      confidence := "Low" }

/-! ## CompositeAggregator (backend/app/signal_analysis.py) -/

/-- `signal_analysis.DEFAULT_PILLAR_WEIGHTS`. -/
def DEFAULT_PILLAR_WEIGHTS : List (String × ℚ) :=
  [("Macro", 7/20), ("Fundamental", 3/10), ("Technical", 1/5), ("Sentiment", 3/20)]

/-- Python's `round(x, 3)` on a rational.  (Python rounds exact half
thousandths to even; this model rounds them up.  No claim distinguishes the
two modes, and the bound |x| ≤ 1 → |round3 x| ≤ 1 holds for both.) -/
def round3 (x : ℚ) : ℚ :=
  ((Rat.floor (x * 1000 + 1/2) : ℤ) : ℚ) / 1000

/-- The per-signal confidence weight used at aggregation time
(`confidence_weights` in `calculate_composite_signal`; the `.get` default
0.3 is unreachable since the dict covers the enum). -/
def confidenceWeight : Confidence → ℚ
  | .HIGH => 1
  | .MEDIUM => 3/5
  | .LOW => 3/10

/-- The numeric confidence value (`conf_values`: High 3, Medium 2, Low 1). -/
def confValue : Confidence → ℚ
  | .HIGH => 3
  | .MEDIUM => 2
  | .LOW => 1

/-- `conf_values.get(x, 1)` on the string buckets used for the composite
confidence. -/
def confValStr (x : String) : ℚ :=
  if x = "High" then 3 else if x = "Medium" then 2 else 1

/-- The stored score of a signal, or its computed score when unset
(`signal.score if signal.score is not None else calculate_signal_score(signal)`). -/
def signalScoreOf (s : Signal) : ℚ :=
  s.score.getD (calculateSignalScore s)

/-- Average confidence-weighted score of one pillar's signals
(`pillar_score = sum(weighted_scores) / len(weighted_scores)`). -/
def pillarScore (sigs : List Signal) : ℚ :=
  ((sigs.map (fun s => signalScoreOf s * confidenceWeight s.confidence)).sum) /
    (sigs.length : ℚ)

/-- Dominant direction of one pillar's signals (majority count, tie gives
"Neutral"). -/
def dominantDirection (sigs : List Signal) : String :=
  let bullish_count := (sigs.filter (fun s => decide (s.direction = Direction.BULLISH))).length
  let bearish_count := (sigs.filter (fun s => decide (s.direction = Direction.BEARISH))).length
  if bullish_count > bearish_count then "Bullish"
  else if bearish_count > bullish_count then "Bearish"
  else "Neutral"

/-- Average confidence bucket of one pillar's signals
(numeric average, thresholds 2.5 and 1.5). -/
def avgConfidence (sigs : List Signal) : String :=
  let avg_conf_num := ((sigs.map (fun s => confValue s.confidence)).sum) / (sigs.length : ℚ)
  if avg_conf_num ≥ 5/2 then "High"
  else if avg_conf_num ≥ 3/2 then "Medium"
  else "Low"

/-- Lexicographic code-point comparison of character lists (Python string
ordering). -/
def charsLt : List Char → List Char → Bool
  | _, [] => false
  | [], _ :: _ => true
  | a :: s, b :: t =>
      if a.toNat < b.toNat then true
      else if b.toNat < a.toNat then false
      else charsLt s t

/-- Python's `<` on strings (lexicographic by code point). -/
def strLtB (a b : String) : Bool :=
  charsLt a.data b.data

/-- Insert a string into a sorted list (ascending, Python `sorted`). -/
def insertSortedStr (x : String) : List String → List String
  | [] => [x]
  | y :: t => if strLtB x y then x :: y :: t else y :: insertSortedStr x t

/-- Sort strings ascending (Python `sorted(keys)`). -/
def sortStrings (l : List String) : List String :=
  l.foldr insertSortedStr []

/-- One entry of the composite's `pillar_breakdown`. -/
structure PillarContribution where
  pillar : String
  score : ℚ
  direction : String
  confidence : String
  weight : ℚ
  signal_count : Nat
  deriving Repr, DecidableEq

/-- The dict returned by `calculate_composite_signal` (the wall-clock
`calculated_at` timestamp is omitted: it carries no design content). -/
structure CompositeResult where
  market : String
  composite_score : ℚ
  composite_direction : String
  composite_confidence : String
  pillar_breakdown : List PillarContribution
  explanation : String
  pillar_count : Nat
  total_signals : Nat
  deriving Repr, DecidableEq

/-- `signal_analysis.calculate_composite_signal`.  The single Python loop
over `by_pillar.items()` that skips groups below `min_signals_per_pillar`
and fills the four per-pillar dicts is rendered as a filter (`quals`)
followed by one map per dict; group lists are nonempty by construction, so
the `if weighted_scores:` guard inside the loop is always taken. -/
def calculateCompositeSignal (signals : List Signal) (market : String)
    (pillar_weights_arg : Option (List (String × ℚ)))
    (min_signals_per_pillar : Nat) : Option CompositeResult :=
  if signals = [] then none else
  let pillar_weights := pillar_weights_arg.getD DEFAULT_PILLAR_WEIGHTS
  let by_pillar := groupByKey (fun s => s.category) signals
  if by_pillar.length < 2 then none else
  let quals := by_pillar.filter (fun p => decide (min_signals_per_pillar ≤ p.2.length))
  let pillar_scores := quals.map (fun p => (p.1, pillarScore p.2))
  let pillar_weights_used := quals.map (fun p => (p.1, dictGetD pillar_weights p.1 (1/4)))
  let pillar_directions := quals.map (fun p => (p.1, dominantDirection p.2))
  let pillar_confidences := quals.map (fun p => (p.1, avgConfidence p.2))
  if pillar_scores = [] then none else
  let total_weight := (pillar_weights_used.map Prod.snd).sum
  if total_weight = 0 then none else
  let normalized_weights := pillar_weights_used.map (fun p => (p.1, p.2 / total_weight))
  let composite_score :=
    (pillar_scores.map (fun p => p.2 * dictGetD normalized_weights p.1 0)).sum
  let composite_direction :=
    if composite_score ≥ 3/10 then "Bullish"
    else if composite_score ≤ -(3/10) then "Bearish"
    else "Neutral"
  let weighted_conf :=
    (pillar_confidences.map (fun p => confValStr p.2 * dictGetD normalized_weights p.1 0)).sum
  let composite_confidence :=
    if weighted_conf ≥ 5/2 then "High"
    else if weighted_conf ≥ 3/2 then "Medium"
    else "Low"
  let contributing_pillars := (sortStrings (pillar_scores.map Prod.fst)).map
    (fun pillar =>
      { pillar := pillar
        score := round3 (dictGetD pillar_scores pillar 0)
        direction := dictGetD pillar_directions pillar ""
        confidence := dictGetD pillar_confidences pillar ""
        weight := round3 (dictGetD normalized_weights pillar 0)
        signal_count := (dictGetD by_pillar pillar []).length : PillarContribution })
  let explanation := "Composite signal combining " ++
    toString contributing_pillars.length ++ " pillars: " ++
    String.intercalate ", "
      (contributing_pillars.map (fun p => p.pillar ++ " (" ++ p.direction ++ ")"))
  some
    { market := market
      composite_score := round3 composite_score
      composite_direction := composite_direction
      composite_confidence := composite_confidence
      pillar_breakdown := contributing_pillars
      explanation := explanation
      pillar_count := contributing_pillars.length
      total_signals := signals.length }

/-! ## AlertEvaluator (backend/app/alert_storage.py) -/

/-- Alert types (`models.AlertType` as used by `alert_storage`). -/
inductive AlertType where
  | DIRECTION_CHANGE
  | CONFIDENCE_CHANGE
  | NEW_CONFLICT
  | REGIME_TRANSITION
  | STALE_SIGNAL
  deriving Repr, DecidableEq

/-- The string-keyed `conditions` bag of an alert; `alert_storage` reads it
only with `conditions.get("signal_id")` and `conditions.get("market")`, so
it is modelled as those two optional entries.  A missing key gives `none`. -/
structure AlertConditions where
  signal_id : Option String
  market : Option String
  deriving Repr, DecidableEq

/-- A stored alert (`models.Alert` as used by `alert_storage`). -/
structure Alert where
  alert_id : String
  name : String
  alert_type : AlertType
  conditions : AlertConditions
  enabled : Bool
  last_triggered : Option Int
  deriving Repr, DecidableEq

/-- Modelled from the spec: the regime-transition record produced by
`detect_regime_transition`, whose definition is absent from the source tree
(it is imported from `snapshot_storage` by `alert_storage` and `routes` but
not defined there); spec §4.5: a transition carries a textual description
and is reported only when the regime type changed. -/
structure RegimeTransition where
  previous_regime : RegimeType
  current_regime : RegimeType
  description : String
  deriving Repr, DecidableEq

/-- One entry of the `stale_signals` payload of a fired stale-signal alert. -/
structure StaleSignalEntry where
  signal_id : String
  signal_name : String
  market : String
  age_days : Int
  deriving Repr, DecidableEq

/-- The alert-type-specific payload attached to a fired alert. -/
inductive TriggerData where
  | directionChange (signal_id : String) (change : DirectionChangeEntry)
  | confidenceChange (signal_id : String) (change : ConfidenceChangeEntry)
  | conflictsFound (conflicts : List Conflict)
  | regimeChange (transition : RegimeTransition)
  | staleSignals (stale : List StaleSignalEntry)
  deriving Repr, DecidableEq

/-- The trigger dict returned by `evaluate_alert` when an alert fires. -/
structure Trigger where
  alert_id : String
  alert_name : String
  trigger_reason : String
  data : TriggerData
  deriving Repr, DecidableEq

/-- The state `evaluate_alert` reads: today's date, the current signals
(`get_all_signals()`), the snapshot store (for `get_changes_since`), and
the persisted regime history keyed by date (spec §4.5). -/
structure AlertEnv where
  today : Int
  signals : List Signal
  store : Store
  regimeHistory : List (Int × Regime)

/-- Modelled from the spec: `get_regime_at_date`, absent from the source
tree's `snapshot_storage.py`; spec §4.5 describes a regime history
"persisted per date in a regime history keyed by date; one record per
date", so the lookup returns the record stored for that date, if any. -/
def getRegimeAtDate (history : List (Int × Regime)) (d : Int) : Option Regime :=
  dictLookup history d

/-- Modelled from the spec: `detect_regime_transition`, absent from the
source tree's `snapshot_storage.py`; spec §4.5: "Transition detection
compares today's regime to the most recent prior date's stored regime and
returns a transition description only when the regime type actually
changed." -/
def detectRegimeTransition (current : Regime) (previous : Option Regime) :
    Option RegimeTransition :=
  match previous with
  | none => none
  | some prev =>
      if prev.regime_type ≠ current.regime_type then
        some
          { previous_regime := prev.regime_type
            current_regime := current.regime_type
            description := "Regime transition detected" }
      else none

/-- `alert_storage.evaluate_alert`: evaluate one alert against the current
state; returns the trigger payload (or `none`) together with the alert,
whose `last_triggered` is set to today when it fires (the Python code
mutates the alert in place).  Python's truthiness test `if signal_id:` /
`if market:` treats the empty string as absent. -/
def evaluateAlert (env : AlertEnv) (alert : Alert) : Option Trigger × Alert :=
  if ¬alert.enabled then (none, alert) else
  let signal_map := currentSignalMap env.signals
  match alert.alert_type with
  | AlertType.DIRECTION_CHANGE =>
      match alert.conditions.signal_id with
      | some signal_id =>
          if signal_id ≠ "" ∧ (dictLookup signal_map signal_id).isSome then
            let since_date := alert.last_triggered.getD (env.today - 1)
            let changes := getChangesSince env.store env.signals since_date
            match changes.changed_direction.find?
                (fun change => change.signal_id == signal_id) with
            | some change =>
                (some
                  { alert_id := alert.alert_id
                    alert_name := alert.name
                    trigger_reason := "Signal " ++ change.signal_name ++
                      " changed direction from " ++ change.old_direction ++
                      " to " ++ change.new_direction
                    data := TriggerData.directionChange signal_id change },
                 { alert with last_triggered := some env.today })
            | none => (none, alert)
          else (none, alert)
      | none => (none, alert)
  | AlertType.CONFIDENCE_CHANGE =>
      match alert.conditions.signal_id with
      | some signal_id =>
          if signal_id ≠ "" ∧ (dictLookup signal_map signal_id).isSome then
            let since_date := alert.last_triggered.getD (env.today - 1)
            let changes := getChangesSince env.store env.signals since_date
            match changes.changed_confidence.find?
                (fun change => change.signal_id == signal_id) with
            | some change =>
                (some
                  { alert_id := alert.alert_id
                    alert_name := alert.name
                    trigger_reason := "Signal " ++ change.signal_name ++
                      " changed confidence from " ++ change.old_confidence ++
                      " to " ++ change.new_confidence
                    data := TriggerData.confidenceChange signal_id change },
                 { alert with last_triggered := some env.today })
            | none => (none, alert)
          else (none, alert)
      | none => (none, alert)
  | AlertType.NEW_CONFLICT =>
      let conflicts := detectConflicts env.signals
      let conflicts :=
        match alert.conditions.market with
        | some market =>
            if market ≠ "" then
              conflicts.filter (fun c => c.market == some market)
            else conflicts
        | none => conflicts
      if conflicts ≠ [] then
        (some
          { alert_id := alert.alert_id
            alert_name := alert.name
            trigger_reason := toString conflicts.length ++ " conflict(s) detected"
            data := TriggerData.conflictsFound (conflicts.take 5) },
         { alert with last_triggered := some env.today })
      else (none, alert)
  | AlertType.REGIME_TRANSITION =>
      let current_regime := detectRegime env.today env.signals
      let previous_regime := getRegimeAtDate env.regimeHistory (env.today - 1)
      match detectRegimeTransition current_regime previous_regime with
      | some transition =>
          (some
            { alert_id := alert.alert_id
              alert_name := alert.name
              trigger_reason := transition.description
              data := TriggerData.regimeChange transition },
           { alert with last_triggered := some env.today })
      | none => (none, alert)
  | AlertType.STALE_SIGNAL =>
      let stale_signals := env.signals.filter (isStale env.today)
      let stale_signals :=
        match alert.conditions.market with
        | some market =>
            if market ≠ "" then
              stale_signals.filter (fun s => s.market == market)
            else stale_signals
        | none => stale_signals
      if stale_signals ≠ [] then
        (some
          { alert_id := alert.alert_id
            alert_name := alert.name
            trigger_reason := toString stale_signals.length ++ " stale signal(s) detected"
            data := TriggerData.staleSignals
              ((stale_signals.take 10).map
                (fun s => ⟨s.signal_id, s.name, s.market, ageDays env.today s⟩)) },
         { alert with last_triggered := some env.today })
      else (none, alert)

/-- `alert_storage.evaluate_all_alerts`: evaluate every enabled alert and
collect the fired triggers; the updated alerts (whose `last_triggered` the
Python code mutates in place) are threaded as the second component. -/
def evaluateAllAlerts (env : AlertEnv) (alerts : List Alert) :
    List Trigger × List Alert :=
  alerts.foldl
    (fun acc alert =>
      if alert.enabled then
        let result := evaluateAlert env alert
        match result.1 with
        | some r => (acc.1 ++ [r], acc.2 ++ [result.2])
        | none => (acc.1, acc.2 ++ [result.2])
      else (acc.1, acc.2 ++ [alert]))
    ([], [])

/-! ## Concrete instances used in counterexamples and witnesses -/

/-- A template signal with neutral narrative fields. -/
def baseSignal : Signal :=
  { signal_id := "s1"
    version := "v1"
    market := "WTI Crude Oil"
    category := "Macro"
    name := "base signal"
    direction := Direction.BULLISH
    confidence := Confidence.HIGH
    last_updated := 0
    data_asof := 0
    explanation := "a clear explanation sentence."
    definition := "what this signal measures"
    source := "price data"
    key_driver := "key driver"
    validity_window := ValidityWindow.DAILY
    decay_behavior := "decays daily"
    related_signal_ids := []
    related_markets := []
    signal_type := SignalType.TACTICAL
    score := none }

/-- A bullish macro USD signal (matches the "USD" name bucket). -/
def sigUSD : Signal :=
  { baseSignal with signal_id := "usd1", name := "USD Index" }

/-- A bullish macro rates signal (matches the "rate" name bucket). -/
def sigRates : Signal :=
  { baseSignal with signal_id := "rates1", name := "US rates outlook" }

/-- First macro-pillar signal for the composite examples. -/
def sigMacro1 : Signal :=
  { baseSignal with signal_id := "m1", name := "macro one" }

/-- Second macro-pillar signal for the composite examples. -/
def sigMacro2 : Signal :=
  { baseSignal with signal_id := "m2", name := "macro two" }

/-- A bearish high-confidence technical-pillar signal. -/
def sigTech1 : Signal :=
  { baseSignal with
      signal_id := "t1", name := "tech one", category := "Technical"
      direction := Direction.BEARISH, signal_type := SignalType.STRUCTURAL }

/-- A bullish short-term (daily) signal. -/
def sigShortBull : Signal :=
  { baseSignal with signal_id := "st1", name := "short bull" }

/-- A bearish structural-window signal. -/
def sigStructBear : Signal :=
  { baseSignal with
      signal_id := "st2", name := "struct bear"
      direction := Direction.BEARISH
      validity_window := ValidityWindow.STRUCTURAL
      signal_type := SignalType.STRUCTURAL }

/-- A neutral intraday signal (direction-neutral short-term signal). -/
def sigShortNeutral : Signal :=
  { baseSignal with
      signal_id := "st3", name := "short neutral"
      direction := Direction.NEUTRAL
      validity_window := ValidityWindow.INTRADAY }

/-- Signal identity "A" as captured on day 1. -/
def sigA : Signal :=
  { baseSignal with signal_id := "A", name := "signal A" }

/-- Signal identity "B" as captured on day 2. -/
def sigB : Signal :=
  { baseSignal with signal_id := "B", name := "signal B" }

/-- The current state of identity "A": direction flipped to bearish and
confidence lowered. -/
def sigABear : Signal :=
  { sigA with direction := Direction.BEARISH, confidence := Confidence.LOW }

/-- Signal identity "C" (present historically, absent now). -/
def sigC : Signal :=
  { baseSignal with signal_id := "C", name := "signal C" }

/-- A store holding identity "A" snapshotted on day 1 and identity "B"
snapshotted on day 2. -/
def storeAB : Store :=
  [(("A", 1), ⟨"A", 1, sigA⟩), (("B", 2), ⟨"B", 2, sigB⟩)]

/-- A store holding identities "A" and "C" snapshotted on day 5. -/
def storeAC5 : Store :=
  [(("A", 5), ⟨"A", 5, sigA⟩), (("C", 5), ⟨"C", 5, sigC⟩)]

/-- An enabled stale-signal alert with no market filter. -/
def alertStale : Alert :=
  { alert_id := "a1"
    name := "stale alert"
    alert_type := AlertType.STALE_SIGNAL
    conditions := { signal_id := none, market := none }
    enabled := true
    last_triggered := none }

/-- An evaluation environment on day 100 whose single signal is stale. -/
def envStale : AlertEnv :=
  { today := 100
    signals := [baseSignal]
    store := []
    regimeHistory := [] }

end Sentinel

namespace Sentinel

/-! ## Dictionary lemmas -/

theorem dictLookup_insert_self {κ α : Type} [DecidableEq κ]
    (m : List (κ × α)) (k : κ) (v : α) :
    dictLookup (dictInsert m k v) k = some v := by
  induction m with
  | nil => simp [dictInsert, dictLookup]
  | cons e t ih =>
      obtain ⟨k', v'⟩ := e
      by_cases h : k' = k
      · simp [dictInsert, h, dictLookup]
      · simp [dictInsert, h, dictLookup, ih]

theorem dictLookup_insert_ne {κ α : Type} [DecidableEq κ]
    (m : List (κ × α)) (k k' : κ) (v : α) (h : k' ≠ k) :
    dictLookup (dictInsert m k v) k' = dictLookup m k' := by
  have hne : k ≠ k' := Ne.symm h
  induction m with
  | nil => simp [dictInsert, dictLookup, hne]
  | cons e t ih =>
      obtain ⟨k₀, v₀⟩ := e
      by_cases h₀ : k₀ = k
      · subst h₀
        simp [dictInsert, dictLookup, hne]
      · simp only [dictInsert, if_neg h₀, dictLookup]
        by_cases h₁ : k₀ = k'
        · simp [h₁]
        · simp [h₁, ih]

theorem dictInsert_of_lookup_eq {κ α : Type} [DecidableEq κ]
    (m : List (κ × α)) (k : κ) (v : α) (h : dictLookup m k = some v) :
    dictInsert m k v = m := by
  induction m with
  | nil => simp [dictLookup] at h
  | cons e t ih =>
      obtain ⟨k₀, v₀⟩ := e
      by_cases h₀ : k₀ = k
      · subst h₀
        have h' : v₀ = v := by simpa [dictLookup] using h
        simp [dictInsert, h']
      · simp only [dictLookup, if_neg h₀] at h
        simp [dictInsert, h₀, ih h]

theorem dictInsert_of_lookup_none {κ α : Type} [DecidableEq κ]
    (m : List (κ × α)) (k : κ) (v : α) (h : dictLookup m k = none) :
    dictInsert m k v = m ++ [(k, v)] := by
  induction m with
  | nil => simp [dictInsert]
  | cons e t ih =>
      obtain ⟨k₀, v₀⟩ := e
      by_cases h₀ : k₀ = k
      · simp [dictLookup, h₀] at h
      · simp only [dictLookup, if_neg h₀] at h
        simp [dictInsert, h₀, ih h]

theorem dictInsert_ne_nil {κ α : Type} [DecidableEq κ]
    (m : List (κ × α)) (k : κ) (v : α) : dictInsert m k v ≠ [] := by
  cases m with
  | nil => simp [dictInsert]
  | cons e t =>
      obtain ⟨k₀, v₀⟩ := e
      by_cases h₀ : k₀ = k <;> simp [dictInsert, h₀]

theorem keys_dictInsert {κ α : Type} [DecidableEq κ]
    (m : List (κ × α)) (k : κ) (v : α) :
    (dictInsert m k v).map Prod.fst = m.map Prod.fst ∨
    (dictInsert m k v).map Prod.fst = m.map Prod.fst ++ [k] := by
  induction m with
  | nil => simp [dictInsert]
  | cons e t ih =>
      obtain ⟨k₀, v₀⟩ := e
      by_cases h₀ : k₀ = k
      · subst h₀; left; simp [dictInsert]
      · rcases ih with ih | ih
        · left; simp [dictInsert, h₀, ih]
        · right; simp [dictInsert, h₀, ih]

theorem keys_dictInsert_nodup {κ α : Type} [DecidableEq κ]
    (m : List (κ × α)) (k : κ) (v : α) (h : (m.map Prod.fst).Nodup) :
    ((dictInsert m k v).map Prod.fst).Nodup := by
  induction m with
  | nil => simp [dictInsert]
  | cons e t ih =>
      obtain ⟨k₀, v₀⟩ := e
      simp only [List.map_cons, List.nodup_cons] at h
      by_cases h₀ : k₀ = k
      · subst h₀
        have he : dictInsert ((k₀, v₀) :: t) k₀ v = (k₀, v) :: t := by
          simp [dictInsert]
        rw [he]
        simp only [List.map_cons, List.nodup_cons]
        exact h
      · have hmem : k₀ ∉ (dictInsert t k v).map Prod.fst := by
          rcases keys_dictInsert t k v with hk | hk <;> rw [hk]
          · exact h.1
          · simp only [List.mem_append, List.mem_singleton]
            rintro (hc | hc)
            · exact h.1 hc
            · exact h₀ hc
        simp only [dictInsert, if_neg h₀, List.map_cons, List.nodup_cons]
        exact ⟨hmem, ih h.2⟩

theorem dictLookup_eq_some_of_mem {κ α : Type} [DecidableEq κ]
    {m : List (κ × α)} {k : κ} {v : α}
    (hnd : (m.map Prod.fst).Nodup) (hm : (k, v) ∈ m) :
    dictLookup m k = some v := by
  induction m with
  | nil => simp at hm
  | cons e t ih =>
      obtain ⟨k₀, v₀⟩ := e
      simp only [List.map_cons, List.nodup_cons] at hnd
      rcases List.mem_cons.mp hm with he | ht
      · obtain ⟨rfl, rfl⟩ := Prod.mk.injEq .. ▸ he
        simp [dictLookup]
      · have hne : k₀ ≠ k := by
          rintro rfl
          exact hnd.1 (List.mem_map.mpr ⟨(k₀, v), ht, rfl⟩)
        simp [dictLookup, hne, ih hnd.2 ht]

theorem mem_of_dictLookup_eq_some {κ α : Type} [DecidableEq κ]
    {m : List (κ × α)} {k : κ} {v : α} (h : dictLookup m k = some v) :
    (k, v) ∈ m := by
  induction m with
  | nil => simp [dictLookup] at h
  | cons e t ih =>
      obtain ⟨k₀, v₀⟩ := e
      by_cases h₀ : k₀ = k
      · subst h₀
        have h' : v₀ = v := by simpa [dictLookup] using h
        subst h'
        exact List.mem_cons_self _ _
      · simp only [dictLookup, if_neg h₀] at h
        exact List.mem_cons_of_mem _ (ih h)

theorem dictLookup_eq_none_iff {κ α : Type} [DecidableEq κ]
    (m : List (κ × α)) (k : κ) :
    dictLookup m k = none ↔ ∀ v, (k, v) ∉ m := by
  induction m with
  | nil => simp [dictLookup]
  | cons e t ih =>
      obtain ⟨k₀, v₀⟩ := e
      by_cases h₀ : k₀ = k
      · subst h₀
        constructor
        · intro h
          simp [dictLookup] at h
        · intro h
          exact absurd (List.mem_cons_self _ _) (h v₀)
      · simp only [dictLookup, if_neg h₀, ih, List.mem_cons]
        constructor
        · rintro h v (hc | hc)
          · exact h₀ (congrArg Prod.fst hc).symm
          · exact h v hc
        · intro h v hv
          exact h v (Or.inr hv)

/-! ## Grouping lemmas -/

theorem groupInsert_lookup (key : Signal → String)
    (acc : List (String × List Signal)) (s : Signal) (m : String) :
    dictLookup (groupInsert key acc s) m =
      if m = key s then some ((dictLookup acc m).getD [] ++ [s])
      else dictLookup acc m := by
  induction acc with
  | nil =>
      by_cases h : m = key s
      · simp [groupInsert, dictLookup, h]
      · simp [groupInsert, dictLookup, h, Ne.symm h]
  | cons e t ih =>
      obtain ⟨m₀, g₀⟩ := e
      by_cases h₀ : m₀ = key s
      · by_cases h₁ : m₀ = m
        · have hm : m = key s := h₁ ▸ h₀
          simp only [groupInsert, if_pos h₀, dictLookup, if_pos h₁, if_pos hm]
          simp
        · have hm : ¬(m = key s) := fun hc => h₁ (h₀.trans hc.symm)
          simp only [groupInsert, if_pos h₀, dictLookup, if_neg h₁, if_neg hm]
      · by_cases h₁ : m₀ = m
        · have hm : ¬(m = key s) := fun hc => h₀ (h₁.trans hc)
          simp only [groupInsert, if_neg h₀, dictLookup, if_pos h₁, if_neg hm]
        · simp only [groupInsert, if_neg h₀, dictLookup, if_neg h₁, ih]

theorem groupByKey_lookup (key : Signal → String) (l : List Signal) (m : String) :
    dictLookup (groupByKey key l) m =
      if l.filter (fun s => decide (key s = m)) = [] then none
      else some (l.filter (fun s => decide (key s = m))) := by
  induction l using List.reverseRecOn with
  | nil => simp [groupByKey, dictLookup]
  | append_singleton l a ih =>
      have hfold : groupByKey key (l ++ [a]) =
          groupInsert key (groupByKey key l) a := by
        simp [groupByKey, List.foldl_append]
      rw [hfold, groupInsert_lookup, List.filter_append]
      by_cases hm : m = key a
      · have ha : (List.filter (fun s => decide (key s = m)) [a]) = [a] := by
          simp [List.filter_singleton, hm.symm]
        rw [if_pos hm, ih, ha]
        by_cases hf : l.filter (fun s => decide (key s = m)) = []
        · simp [hf]
        · simp [hf]
      · have ha : (List.filter (fun s => decide (key s = m)) [a]) = [] := by
          simp [List.filter_singleton, Ne.symm hm]
        rw [if_neg hm, ih, ha, List.append_nil]

theorem groupInsert_keys (key : Signal → String)
    (acc : List (String × List Signal)) (s : Signal) :
    (groupInsert key acc s).map Prod.fst =
      if key s ∈ acc.map Prod.fst then acc.map Prod.fst
      else acc.map Prod.fst ++ [key s] := by
  induction acc with
  | nil => simp [groupInsert]
  | cons e t ih =>
      obtain ⟨m₀, g₀⟩ := e
      by_cases h₀ : m₀ = key s
      · subst h₀
        simp [groupInsert]
      · simp only [groupInsert, if_neg h₀, List.map_cons, ih, List.mem_cons]
        by_cases h₁ : key s ∈ t.map Prod.fst
        · simp [h₁, Ne.symm h₀]
        · simp [h₁, Ne.symm h₀]

theorem groupByKey_keys_nodup (key : Signal → String) (l : List Signal) :
    ((groupByKey key l).map Prod.fst).Nodup := by
  induction l using List.reverseRecOn with
  | nil => simp [groupByKey]
  | append_singleton l a ih =>
      have hfold : groupByKey key (l ++ [a]) =
          groupInsert key (groupByKey key l) a := by
        simp [groupByKey, List.foldl_append]
      rw [hfold, groupInsert_keys]
      by_cases h : key a ∈ (groupByKey key l).map Prod.fst
      · simpa [h] using ih
      · rw [if_neg h]
        simp [List.nodup_append, ih, h]

theorem mem_groupByKey_iff (key : Signal → String) (l : List Signal)
    (m : String) (g : List Signal) :
    (m, g) ∈ groupByKey key l ↔
      (l.filter (fun s => decide (key s = m)) ≠ [] ∧
       g = l.filter (fun s => decide (key s = m))) := by
  constructor
  · intro hm
    have := dictLookup_eq_some_of_mem (groupByKey_keys_nodup key l) hm
    rw [groupByKey_lookup] at this
    by_cases hf : l.filter (fun s => decide (key s = m)) = []
    · rw [if_pos hf] at this; exact absurd this (by simp)
    · rw [if_neg hf] at this
      exact ⟨hf, (Option.some_inj.mp this).symm⟩
  · rintro ⟨hne, rfl⟩
    apply mem_of_dictLookup_eq_some
    rw [groupByKey_lookup, if_neg hne]

end Sentinel

namespace Sentinel

/- The Batteries rational operations are `@[irreducible]`; restoring the
default transparency lets concrete witnesses evaluate by `decide`. -/
attribute [local semireducible] Rat.mul Rat.add Rat.sub Rat.inv

/-! ## Claim C6 -/

/-- Claim C6: for every signal, `calculate_signal_score` returns exactly the
direction value (Bullish +1, Bearish -1, Neutral 0) times the confidence
multiplier (High 1.0, Medium 0.6, Low 0.3); consequently the score lies in
[-1, 1], and it is 0 exactly when the direction is Neutral. -/
theorem c6_score_is_product_bounded_zero_iff_neutral (s : Signal) :
    calculateSignalScore s =
      (match s.direction with
        | Direction.BULLISH => (1 : ℚ)
        | Direction.BEARISH => -1
        | Direction.NEUTRAL => 0) *
      (match s.confidence with
        | Confidence.HIGH => (1 : ℚ)
        | Confidence.MEDIUM => 3/5
        | Confidence.LOW => 3/10) ∧
    -1 ≤ calculateSignalScore s ∧ calculateSignalScore s ≤ 1 ∧
    (calculateSignalScore s = 0 ↔ s.direction = Direction.NEUTRAL) := by
  rcases s with ⟨_, _, _, _, _, d, c, _⟩
  cases d <;> cases c <;> norm_num [calculateSignalScore] <;> decide

/-! ## Claim C3 -/

/-- Claim C3 (counterexample): with a bullish macro USD signal and a bullish
macro rates signal and no growth-bucket signal, `detect_regime` classifies a
tightening regime with confidence "High" even though the Growth bucket state
is "unknown" — refuting the claim that confidence is "High" only when all
three bucket states are known and "Medium" whenever one is unknown. -/
theorem c3_high_confidence_with_unknown_growth :
    (detectRegime 0 [sigUSD, sigRates]).confidence = "High" ∧
    dictLookup (detectRegime 0 [sigUSD, sigRates]).indicators "Growth" =
      some "unknown" ∧
    (detectRegime 0 [sigUSD, sigRates]).regime_type = RegimeType.TIGHTENING := by
  decide

/-- Claim C3 (amended): `detect_regime` returns confidence "High" for every
regime except the uncertain default, which gets "Low"; in particular the
tightening and disinflationary-growth branches return "High" even when the
Growth (respectively USD) bucket state is "unknown", and "Medium" is never
returned. -/
theorem c3_confidence_high_unless_uncertain (today : Int) (signals : List Signal) :
    (detectRegime today signals).confidence =
      (if (detectRegime today signals).regime_type = RegimeType.UNCERTAIN
        then "Low" else "High") := by
  simp only [detectRegime]
  split_ifs <;> simp_all

/-! ## Claim C7 -/

/-- The store component of `create_daily_snapshot` is the fold of
`snapInsert` over the captured signals. -/
theorem createDailySnapshot_fst (store : Store) (sigs : List Signal) (d : Int) :
    (createDailySnapshot store sigs d).1 = sigs.foldl (snapInsert d) store := by
  suffices h : ∀ (sigs : List Signal) (p : Store × List SignalSnapshot),
      (sigs.foldl
        (fun acc signal =>
          (dictInsert acc.1 (signal.signal_id, d)
            ⟨signal.signal_id, d, signal⟩, acc.2 ++ [⟨signal.signal_id, d, signal⟩]))
        p).1 = sigs.foldl (snapInsert d) p.1 by
    exact h sigs (store, [])
  intro sigs
  induction sigs with
  | nil => intro p; rfl
  | cons s t ih => intro p; exact ih _

/-- Folding `snapInsert` does not disturb the value of a key whose signal id
does not occur in the folded signals. -/
theorem snapFold_lookup_of_not_mem (d : Int) (sigs : List Signal) (st : Store)
    (k : String × Int) (hk : ∀ s ∈ sigs, (s.signal_id, d) ≠ k) :
    dictLookup (sigs.foldl (snapInsert d) st) k = dictLookup st k := by
  induction sigs generalizing st with
  | nil => rfl
  | cons s t ih =>
      have hs : (s.signal_id, d) ≠ k := hk s (List.mem_cons_self _ _)
      have ht : ∀ s' ∈ t, (s'.signal_id, d) ≠ k :=
        fun s' hs' => hk s' (List.mem_cons_of_mem _ hs')
      calc dictLookup ((s :: t).foldl (snapInsert d) st) k
          = dictLookup (t.foldl (snapInsert d) (snapInsert d st s)) k := rfl
        _ = dictLookup (snapInsert d st s) k := ih _ ht
        _ = dictLookup st k := dictLookup_insert_ne _ _ _ _ (Ne.symm hs)

/-- Re-running the snapshot fold with the same signals and date is a no-op
when the signal ids are distinct. -/
theorem snapFold_idem (d : Int) (sigs : List Signal) (st : Store)
    (h : (sigs.map Signal.signal_id).Nodup) :
    (sigs.foldl (snapInsert d) (sigs.foldl (snapInsert d) st)) =
      sigs.foldl (snapInsert d) st := by
  induction sigs generalizing st with
  | nil => rfl
  | cons s t ih =>
      simp only [List.map_cons, List.nodup_cons] at h
      have hid : ∀ s' ∈ t, (s'.signal_id, d) ≠ (s.signal_id, d) := by
        intro s' hs' hc
        exact h.1 (List.mem_map.mpr ⟨s', hs', (congrArg Prod.fst hc)⟩)
      have hlook :
          dictLookup (t.foldl (snapInsert d) (snapInsert d st s)) (s.signal_id, d) =
            some ⟨s.signal_id, d, s⟩ := by
        rw [snapFold_lookup_of_not_mem d t _ _ hid]
        exact dictLookup_insert_self _ _ _
      calc (s :: t).foldl (snapInsert d) ((s :: t).foldl (snapInsert d) st)
          = t.foldl (snapInsert d)
              (snapInsert d (t.foldl (snapInsert d) (snapInsert d st s)) s) := rfl
        _ = t.foldl (snapInsert d) (t.foldl (snapInsert d) (snapInsert d st s)) := by
              rw [show snapInsert d (t.foldl (snapInsert d) (snapInsert d st s)) s =
                    t.foldl (snapInsert d) (snapInsert d st s) from
                  dictInsert_of_lookup_eq _ _ _ hlook]
        _ = t.foldl (snapInsert d) (snapInsert d st s) := ih _ h.2

/-- Folding `snapInsert` preserves distinctness of the store's keys. -/
theorem snapFold_keys_nodup (d : Int) (sigs : List Signal) (st : Store)
    (h : (st.map Prod.fst).Nodup) :
    ((sigs.foldl (snapInsert d) st).map Prod.fst).Nodup := by
  induction sigs generalizing st with
  | nil => exact h
  | cons s t ih => exact ih _ (keys_dictInsert_nodup _ _ _ h)

/-- Claim C7: re-running `create_daily_snapshot` with the same date and the
same current signal set leaves the snapshot store unchanged (idempotent
upsert, no duplicate entries), and any sequence of snapshot operations
starting from the empty store keeps at most one snapshot per
(signal_id, date) key. -/
theorem c7_snapshot_idempotent_and_unique (store : Store) (sigs : List Signal)
    (d : Int) (ops : List (List Signal × Int))
    (h : (sigs.map Signal.signal_id).Nodup) :
    (createDailySnapshot (createDailySnapshot store sigs d).1 sigs d).1 =
      (createDailySnapshot store sigs d).1 ∧
    ((runSnapshots ops).map Prod.fst).Nodup := by
  constructor
  · rw [createDailySnapshot_fst, createDailySnapshot_fst]
    exact snapFold_idem d sigs store h
  · have hrun : ∀ (ops : List (List Signal × Int)) (st : Store),
        (st.map Prod.fst).Nodup →
        ((ops.foldl (fun st op => (createDailySnapshot st op.1 op.2).1) st).map
          Prod.fst).Nodup := by
      intro ops
      induction ops with
      | nil => intro st hst; exact hst
      | cons op t ih =>
          intro st hst
          have : ((createDailySnapshot st op.1 op.2).1.map Prod.fst).Nodup := by
            rw [createDailySnapshot_fst]
            exact snapFold_keys_nodup _ _ _ hst
          exact ih _ this
    exact hrun ops [] (by simp)

/-- Claim C7 (witness): a concrete run with one signal, snapshotted twice on
day 1, matches the idempotence and key-uniqueness statement. -/
theorem c7_snapshot_idempotent_and_unique_witness :
    (([baseSignal].map Signal.signal_id).Nodup) ∧
    ((createDailySnapshot (createDailySnapshot [] [baseSignal] 1).1 [baseSignal] 1).1 =
      (createDailySnapshot [] [baseSignal] 1).1 ∧
    ((runSnapshots [([baseSignal], 1), ([baseSignal], 1)]).map Prod.fst).Nodup) :=
  ⟨by decide,
   c7_snapshot_idempotent_and_unique [] [baseSignal] 1
     [([baseSignal], 1), ([baseSignal], 1)] (by decide)⟩

/-! ## Claim C4 -/

/-- Claim C4 (counterexample): with two Macro signals, one Technical signal
and `min_signals_per_pillar = 2`, two pillars are represented but only the
Macro pillar qualifies, yet `calculate_composite_signal` returns a composite
built from that single qualifying pillar — refuting the claim that the
result is `None` whenever fewer than two pillars qualify under the minimum. -/
theorem c4_single_qualifying_pillar_composite :
    (calculateCompositeSignal [sigMacro1, sigMacro2, sigTech1]
      "WTI Crude Oil" none 2).isSome = true ∧
    Option.map CompositeResult.pillar_count
      (calculateCompositeSignal [sigMacro1, sigMacro2, sigTech1]
        "WTI Crude Oil" none 2) = some 1 := by
  decide

/-- Claim C4 (amended): `calculate_composite_signal` returns `None` exactly
when the signal list is empty, fewer than two pillars are represented, no
represented pillar reaches the minimum signal count, or the qualifying
pillars' weights sum to zero.  In particular at least two pillars must be
represented, but when only one of them qualifies under the minimum the
composite is still produced from that single pillar. -/
theorem c4_composite_none_iff (signals : List Signal) (market : String)
    (pw : Option (List (String × ℚ))) (m : Nat) :
    calculateCompositeSignal signals market pw m = none ↔
      (signals = [] ∨
       (groupByKey (fun s => s.category) signals).length < 2 ∨
       ((groupByKey (fun s => s.category) signals).filter
          (fun p => decide (m ≤ p.2.length))) = [] ∨
       (((groupByKey (fun s => s.category) signals).filter
          (fun p => decide (m ≤ p.2.length))).map
            (fun p => dictGetD (pw.getD DEFAULT_PILLAR_WEIGHTS) p.1 (1/4))).sum = 0) := by
  simp only [calculateCompositeSignal]
  split_ifs with h1 h2 h3 h4
  · simp [h1]
  · simp [h2]
  · rw [List.map_eq_nil_iff] at h3
    simp [h3]
  · rw [List.map_map] at h4
    exact iff_of_true rfl (Or.inr (Or.inr (Or.inr h4)))
  · rw [List.map_eq_nil_iff] at h3
    rw [List.map_map] at h4
    refine iff_of_false (by simp) ?_
    rintro (hc | hc | hc | hc)
    · exact h1 hc
    · exact h2 hc
    · exact h3 hc
    · exact h4 hc

/-- Claim C4 (witness): with a single signal only one pillar is represented
and the composite is `None`. -/
theorem c4_composite_none_iff_witness :
    calculateCompositeSignal [sigMacro1] "WTI Crude Oil" none 1 = none :=
  (c4_composite_none_iff [sigMacro1] "WTI Crude Oil" none 1).mpr
    (Or.inr (Or.inl (by decide)))

/-! ## Claim C5 -/

/-- A disabled alert is skipped: evaluation returns `none` and leaves the
alert untouched. -/
theorem evaluateAlert_disabled (env : AlertEnv) (alert : Alert)
    (h : alert.enabled = false) : evaluateAlert env alert = (none, alert) := by
  simp [evaluateAlert, h]

/-- The fired triggers of `evaluate_all_alerts` are exactly the per-alert
results, each alert evaluated independently of the others. -/
theorem evaluateAllAlerts_fst (env : AlertEnv) (alerts : List Alert) :
    (evaluateAllAlerts env alerts).1 =
      alerts.filterMap (fun a => (evaluateAlert env a).1) := by
  suffices h : ∀ (alerts : List Alert) (acc : List Trigger × List Alert),
      (alerts.foldl
        (fun acc alert =>
          if alert.enabled then
            let result := evaluateAlert env alert
            match result.1 with
            | some r => (acc.1 ++ [r], acc.2 ++ [result.2])
            | none => (acc.1, acc.2 ++ [result.2])
          else (acc.1, acc.2 ++ [alert])) acc).1 =
        acc.1 ++ alerts.filterMap (fun a => (evaluateAlert env a).1) by
    exact h alerts ([], [])
  intro alerts
  induction alerts with
  | nil => intro acc; simp
  | cons a t ih =>
      intro acc
      by_cases he : a.enabled
      · rcases hres : (evaluateAlert env a).1 with _ | r
        · simp only [List.foldl_cons, if_pos he, hres, List.filterMap_cons, ih]
        · simp only [List.foldl_cons, if_pos he, hres, List.filterMap_cons, ih,
            List.append_assoc, List.singleton_append]
      · have hnone : (evaluateAlert env a).1 = none := by
          rw [evaluateAlert_disabled env a (Bool.not_eq_true _ ▸ he)]
        simp only [List.foldl_cons, if_neg he, List.filterMap_cons, hnone, ih]

/-- Claim C5: every stored alert is evaluated independently — the trigger
list of `evaluate_all_alerts` is the per-alert `filterMap`, so no alert's
evaluation can prevent the remaining alerts from being evaluated (in this
embedding every evaluation path is total, mirroring the Python code, which
raises on none of its branches); a disabled alert evaluates to `none`
untouched, and a direction-change or confidence-change alert whose
conditions lack the `signal_id` key evaluates to `none` instead of
raising. -/
theorem c5_alert_evaluation_isolated (env : AlertEnv) (alerts : List Alert)
    (alert : Alert) :
    (evaluateAllAlerts env alerts).1 =
      alerts.filterMap (fun a => (evaluateAlert env a).1) ∧
    (alert.enabled = false → evaluateAlert env alert = (none, alert)) ∧
    (alert.conditions.signal_id = none →
      (alert.alert_type = AlertType.DIRECTION_CHANGE ∨
       alert.alert_type = AlertType.CONFIDENCE_CHANGE) →
      (evaluateAlert env alert).1 = none) := by
  refine ⟨evaluateAllAlerts_fst env alerts, evaluateAlert_disabled env alert, ?_⟩
  intro hsig htype
  by_cases he : alert.enabled
  · rcases htype with h | h <;> simp [evaluateAlert, he, h, hsig]
  · simp [evaluateAlert, he]

/-- Claim C5 (witness): in an environment with one stale signal, a single
enabled stale-signal alert is evaluated and fires, matching the isolation
statement, and a disabled copy of it is skipped. -/
theorem c5_alert_evaluation_isolated_witness :
    ((evaluateAllAlerts envStale [alertStale]).1 =
      [alertStale].filterMap (fun a => (evaluateAlert envStale a).1) ∧
    (alertStale.enabled = false → evaluateAlert envStale alertStale = (none, alertStale)) ∧
    (alertStale.conditions.signal_id = none →
      (alertStale.alert_type = AlertType.DIRECTION_CHANGE ∨
       alertStale.alert_type = AlertType.CONFIDENCE_CHANGE) →
      (evaluateAlert envStale alertStale).1 = none)) ∧
    (evaluateAllAlerts envStale [alertStale]).1.length = 1 :=
  ⟨c5_alert_evaluation_isolated envStale [alertStale] alertStale, by decide⟩

/-! ## Claims C8 and C10 -/

/-- A list containing two distinct elements has length at least two. -/
theorem two_le_length_of_mem_ne {α : Type} {l : List α} {a b : α}
    (ha : a ∈ l) (hb : b ∈ l) (hab : a ≠ b) : 2 ≤ l.length := by
  cases l with
  | nil => simp at ha
  | cons x t =>
      cases t with
      | nil =>
          simp only [List.mem_singleton] at ha hb
          exact absurd (ha.trans hb.symm) hab
      | cons y u =>
          simp only [List.length_cons]
          omega

/-- Membership in `detect_conflicts` comes from one of the three rules
applied to one market group. -/
theorem mem_detectConflicts (signals : List Signal) (c : Conflict) :
    c ∈ detectConflicts signals ↔
      ((∃ p ∈ groupByKey (fun s => s.market) signals,
          oppositeDirectionRule p = some c) ∨
       (∃ p ∈ groupByKey (fun s => s.market) signals,
          structuralTacticalRule p = some c) ∨
       (∃ p ∈ groupByKey (fun s => s.market) signals,
          timeframeMismatchRule p = some c)) := by
  simp [detectConflicts, List.mem_append, List.mem_filterMap]

/-- What a fired opposite-direction rule says about its conflict. -/
theorem oppositeDirectionRule_some (p : String × List Signal) (c : Conflict)
    (h : oppositeDirectionRule p = some c) :
    c.conflict_type = ConflictType.OPPOSITE_DIRECTION ∧ c.market = some p.1 ∧
    2 ≤ p.2.length ∧
    p.2.filter (fun s => decide (s.direction = Direction.BULLISH) &&
      decide (s.confidence.value = "High")) ≠ [] ∧
    p.2.filter (fun s => decide (s.direction = Direction.BEARISH) &&
      decide (s.confidence.value = "High")) ≠ [] ∧
    c.conflicting_signals =
      ((p.2.filter (fun s => decide (s.direction = Direction.BULLISH) &&
          decide (s.confidence.value = "High"))) ++
       (p.2.filter (fun s => decide (s.direction = Direction.BEARISH) &&
          decide (s.confidence.value = "High")))).map Signal.signal_id := by
  simp only [oppositeDirectionRule] at h
  by_cases h1 : p.2.length < 2
  · rw [if_pos h1] at h
    exact absurd h (by simp)
  rw [if_neg h1] at h
  by_cases h2 : p.2.filter (fun s => decide (s.direction = Direction.BULLISH) &&
        decide (s.confidence.value = "High")) ≠ [] ∧
      p.2.filter (fun s => decide (s.direction = Direction.BEARISH) &&
        decide (s.confidence.value = "High")) ≠ []
  · rw [if_pos h2] at h
    obtain rfl := Option.some_inj.mp h
    exact ⟨rfl, rfl, by omega, h2.1, h2.2, by simp⟩
  · rw [if_neg h2] at h
    exact absurd h (by simp)

/-- What a fired structural/tactical rule says about its conflict. -/
theorem structuralTacticalRule_some (p : String × List Signal) (c : Conflict)
    (h : structuralTacticalRule p = some c) :
    c.conflict_type = ConflictType.STRUCTURAL_TACTICAL_MISMATCH ∧
    c.market = some p.1 ∧ 2 ≤ p.2.length := by
  simp only [structuralTacticalRule] at h
  by_cases h1 : p.2.length < 2
  · rw [if_pos h1] at h
    exact absurd h (by simp)
  rw [if_neg h1] at h
  by_cases h2 : (p.2.filter (fun s => decide (s.signal_type = SignalType.STRUCTURAL) &&
        decide (s.direction = Direction.BULLISH)) ≠ [] ∧
      p.2.filter (fun s => decide (s.signal_type = SignalType.TACTICAL) &&
        decide (s.direction = Direction.BEARISH)) ≠ []) ∨
      (p.2.filter (fun s => decide (s.signal_type = SignalType.STRUCTURAL) &&
        decide (s.direction = Direction.BEARISH)) ≠ [] ∧
      p.2.filter (fun s => decide (s.signal_type = SignalType.TACTICAL) &&
        decide (s.direction = Direction.BULLISH)) ≠ [])
  · rw [if_pos h2] at h
    obtain rfl := Option.some_inj.mp h
    exact ⟨rfl, rfl, by omega⟩
  · rw [if_neg h2] at h
    exact absurd h (by simp)

/-- What a fired timeframe-mismatch rule says about its conflict: in
particular the conflict names every short-term and every structural signal
of the market group, regardless of direction. -/
theorem timeframeMismatchRule_some (p : String × List Signal) (c : Conflict)
    (h : timeframeMismatchRule p = some c) :
    c.conflict_type = ConflictType.TIMEFRAME_MISMATCH ∧ c.market = some p.1 ∧
    2 ≤ p.2.length ∧
    c.conflicting_signals =
      ((p.2.filter (fun s => decide (s.validity_window = ValidityWindow.INTRADAY) ||
          decide (s.validity_window = ValidityWindow.DAILY))) ++
       (p.2.filter (fun s => decide (s.validity_window =
          ValidityWindow.STRUCTURAL)))).map Signal.signal_id := by
  simp only [timeframeMismatchRule] at h
  by_cases h1 : p.2.length < 2
  · rw [if_pos h1] at h
    exact absurd h (by simp)
  rw [if_neg h1] at h
  by_cases h2 : p.2.filter (fun s => decide (s.validity_window = ValidityWindow.INTRADAY) ||
        decide (s.validity_window = ValidityWindow.DAILY)) ≠ [] ∧
      p.2.filter (fun s => decide (s.validity_window = ValidityWindow.STRUCTURAL)) ≠ []
  swap
  · rw [if_neg h2] at h
    exact absurd h (by simp)
  rw [if_pos h2] at h
  by_cases h3 : ((p.2.filter (fun s => decide (s.validity_window = ValidityWindow.INTRADAY) ||
        decide (s.validity_window = ValidityWindow.DAILY))).filter
          (fun s => decide (s.direction = Direction.BULLISH)) ≠ [] ∧
      (p.2.filter (fun s => decide (s.validity_window = ValidityWindow.STRUCTURAL))).filter
          (fun s => decide (s.direction = Direction.BEARISH)) ≠ []) ∨
      ((p.2.filter (fun s => decide (s.validity_window = ValidityWindow.INTRADAY) ||
        decide (s.validity_window = ValidityWindow.DAILY))).filter
          (fun s => decide (s.direction = Direction.BEARISH)) ≠ [] ∧
      (p.2.filter (fun s => decide (s.validity_window = ValidityWindow.STRUCTURAL))).filter
          (fun s => decide (s.direction = Direction.BULLISH)) ≠ [])
  · rw [if_pos h3] at h
    obtain rfl := Option.some_inj.mp h
    exact ⟨rfl, rfl, by omega, by simp⟩
  · rw [if_neg h3] at h
    exact absurd h (by simp)

/-- The opposite-direction rule fires as soon as its group has a
high-confidence bullish and a high-confidence bearish member. -/
theorem oppositeDirectionRule_isSome (p : String × List Signal)
    (h2 : ¬p.2.length < 2)
    (hb : p.2.filter (fun s => decide (s.direction = Direction.BULLISH) &&
      decide (s.confidence.value = "High")) ≠ [])
    (hr : p.2.filter (fun s => decide (s.direction = Direction.BEARISH) &&
      decide (s.confidence.value = "High")) ≠ []) :
    (oppositeDirectionRule p).isSome := by
  simp only [oppositeDirectionRule]
  rw [if_neg h2, if_pos ⟨hb, hr⟩]
  rfl

/-- Claim C8: `detect_conflicts` emits no conflict for a market with fewer
than two signals; an opposite-direction conflict for market m exists iff
that market has at least one high-confidence bullish and at least one
high-confidence bearish signal; and such a conflict names exactly the
high-confidence bullish signals followed by the high-confidence bearish
signals of that market. -/
theorem c8_opposite_direction_conflicts (signals : List Signal) (m : String) :
    ((signals.filter (fun s => decide (s.market = m))).length < 2 →
      ∀ c ∈ detectConflicts signals, c.market ≠ some m) ∧
    ((∃ c ∈ detectConflicts signals,
        c.conflict_type = ConflictType.OPPOSITE_DIRECTION ∧ c.market = some m) ↔
      ((∃ s ∈ signals, s.market = m ∧ s.direction = Direction.BULLISH ∧
          s.confidence.value = "High") ∧
       (∃ s ∈ signals, s.market = m ∧ s.direction = Direction.BEARISH ∧
          s.confidence.value = "High"))) ∧
    (∀ c ∈ detectConflicts signals,
      c.conflict_type = ConflictType.OPPOSITE_DIRECTION → c.market = some m →
      c.conflicting_signals =
        (((signals.filter (fun s => decide (s.market = m))).filter
            (fun s => decide (s.direction = Direction.BULLISH) &&
              decide (s.confidence.value = "High"))) ++
         ((signals.filter (fun s => decide (s.market = m))).filter
            (fun s => decide (s.direction = Direction.BEARISH) &&
              decide (s.confidence.value = "High")))).map Signal.signal_id) := by
  have hgroup : ∀ p : String × List Signal,
      p ∈ groupByKey (fun s => s.market) signals →
      p.2 = signals.filter (fun s => decide (s.market = p.1)) := by
    intro ⟨m0, g0⟩ hp
    exact ((mem_groupByKey_iff _ signals m0 g0).mp hp).2
  refine ⟨?_, ⟨?_, ?_⟩, ?_⟩
  · intro hlen c hc hcm
    have hfacts : ∃ p : String × List Signal,
        p ∈ groupByKey (fun s => s.market) signals ∧
        c.market = some p.1 ∧ 2 ≤ p.2.length := by
      rcases (mem_detectConflicts signals c).mp hc with
        ⟨p, hp, hr⟩ | ⟨p, hp, hr⟩ | ⟨p, hp, hr⟩
      · obtain ⟨_, hm, hl, _⟩ := oppositeDirectionRule_some p c hr
        exact ⟨p, hp, hm, hl⟩
      · obtain ⟨_, hm, hl⟩ := structuralTacticalRule_some p c hr
        exact ⟨p, hp, hm, hl⟩
      · obtain ⟨_, hm, hl, _⟩ := timeframeMismatchRule_some p c hr
        exact ⟨p, hp, hm, hl⟩
    obtain ⟨p, hp, hm, hl⟩ := hfacts
    rw [hcm] at hm
    obtain rfl : m = p.1 := Option.some_inj.mp hm
    rw [hgroup p hp] at hl
    omega
  · rintro ⟨c, hc, htype, hcm⟩
    rcases (mem_detectConflicts signals c).mp hc with
      ⟨p, hp, hr⟩ | ⟨p, hp, hr⟩ | ⟨p, hp, hr⟩
    · obtain ⟨_, hm, _, hbf, hrf, _⟩ := oppositeDirectionRule_some p c hr
      rw [hcm] at hm
      obtain rfl : m = p.1 := Option.some_inj.mp hm
      have hget : ∀ (d : Direction),
          p.2.filter (fun s => decide (s.direction = d) &&
            decide (s.confidence.value = "High")) ≠ [] →
          ∃ s ∈ signals, s.market = p.1 ∧ s.direction = d ∧
            s.confidence.value = "High" := by
        intro d hne
        obtain ⟨s, hs⟩ := List.exists_mem_of_ne_nil _ hne
        rw [List.mem_filter] at hs
        have hsp : s ∈ p.2 := hs.1
        rw [hgroup p hp, List.mem_filter] at hsp
        refine ⟨s, hsp.1, by simpa using hsp.2, ?_, ?_⟩
        · have := hs.2
          simp only [Bool.and_eq_true, decide_eq_true_eq] at this
          exact this.1
        · have := hs.2
          simp only [Bool.and_eq_true, decide_eq_true_eq] at this
          exact this.2
      exact ⟨hget Direction.BULLISH hbf, hget Direction.BEARISH hrf⟩
    · obtain ⟨ht, _, _⟩ := structuralTacticalRule_some p c hr
      rw [htype] at ht
      exact absurd ht.symm (by simp)
    · obtain ⟨ht, _, _, _⟩ := timeframeMismatchRule_some p c hr
      rw [htype] at ht
      exact absurd ht.symm (by simp)
  · rintro ⟨⟨s1, hs1, hm1, hd1, hc1⟩, ⟨s2, hs2, hm2, hd2, hc2⟩⟩
    have hs1g : s1 ∈ signals.filter (fun s => decide (s.market = m)) :=
      List.mem_filter.mpr ⟨hs1, by simp [hm1]⟩
    have hs2g : s2 ∈ signals.filter (fun s => decide (s.market = m)) :=
      List.mem_filter.mpr ⟨hs2, by simp [hm2]⟩
    have hgmem : (m, signals.filter (fun s => decide (s.market = m))) ∈
        groupByKey (fun s => s.market) signals := by
      refine (mem_groupByKey_iff _ signals m _).mpr ⟨?_, rfl⟩
      exact List.ne_nil_of_mem hs1g
    have hne12 : s1 ≠ s2 := by
      intro hc
      rw [hc] at hd1
      rw [hd1] at hd2
      exact absurd hd2 (by simp)
    have hlen2 : ¬(signals.filter (fun s => decide (s.market = m))).length < 2 := by
      have := two_le_length_of_mem_ne hs1g hs2g hne12
      omega
    have hbf : (signals.filter (fun s => decide (s.market = m))).filter
        (fun s => decide (s.direction = Direction.BULLISH) &&
          decide (s.confidence.value = "High")) ≠ [] :=
      List.ne_nil_of_mem (List.mem_filter.mpr ⟨hs1g, by simp [hd1, hc1]⟩)
    have hrf : (signals.filter (fun s => decide (s.market = m))).filter
        (fun s => decide (s.direction = Direction.BEARISH) &&
          decide (s.confidence.value = "High")) ≠ [] :=
      List.ne_nil_of_mem (List.mem_filter.mpr ⟨hs2g, by simp [hd2, hc2]⟩)
    obtain ⟨c, hc⟩ := Option.isSome_iff_exists.mp
      (oppositeDirectionRule_isSome (m, signals.filter
        (fun s => decide (s.market = m))) hlen2 hbf hrf)
    obtain ⟨ht, hm, _⟩ := oppositeDirectionRule_some _ c hc
    refine ⟨c, (mem_detectConflicts signals c).mpr (Or.inl ⟨_, hgmem, hc⟩), ht, hm⟩
  · intro c hc htype hcm
    rcases (mem_detectConflicts signals c).mp hc with
      ⟨p, hp, hr⟩ | ⟨p, hp, hr⟩ | ⟨p, hp, hr⟩
    · obtain ⟨_, hm, _, _, _, heq⟩ := oppositeDirectionRule_some p c hr
      rw [hcm] at hm
      obtain rfl : m = p.1 := Option.some_inj.mp hm
      rw [heq, hgroup p hp]
    · obtain ⟨ht, _, _⟩ := structuralTacticalRule_some p c hr
      rw [htype] at ht
      exact absurd ht.symm (by simp)
    · obtain ⟨ht, _, _, _⟩ := timeframeMismatchRule_some p c hr
      rw [htype] at ht
      exact absurd ht.symm (by simp)

/-- Claim C8 (witness): a high-confidence bullish and a high-confidence
bearish signal in the same market satisfy the characterization, and
`detect_conflicts` concretely emits the opposite-direction conflict (along
with a structural/tactical one). -/
theorem c8_opposite_direction_conflicts_witness :
    (((([sigMacro1, sigTech1] : List Signal).filter
        (fun s => decide (s.market = "WTI Crude Oil"))).length < 2 →
      ∀ c ∈ detectConflicts [sigMacro1, sigTech1], c.market ≠ some "WTI Crude Oil") ∧
    ((∃ c ∈ detectConflicts [sigMacro1, sigTech1],
        c.conflict_type = ConflictType.OPPOSITE_DIRECTION ∧
        c.market = some "WTI Crude Oil") ↔
      ((∃ s ∈ [sigMacro1, sigTech1], s.market = "WTI Crude Oil" ∧
          s.direction = Direction.BULLISH ∧ s.confidence.value = "High") ∧
       (∃ s ∈ [sigMacro1, sigTech1], s.market = "WTI Crude Oil" ∧
          s.direction = Direction.BEARISH ∧ s.confidence.value = "High"))) ∧
    (∀ c ∈ detectConflicts [sigMacro1, sigTech1],
      c.conflict_type = ConflictType.OPPOSITE_DIRECTION →
      c.market = some "WTI Crude Oil" →
      c.conflicting_signals =
        (((([sigMacro1, sigTech1] : List Signal).filter
            (fun s => decide (s.market = "WTI Crude Oil"))).filter
            (fun s => decide (s.direction = Direction.BULLISH) &&
              decide (s.confidence.value = "High"))) ++
         ((([sigMacro1, sigTech1] : List Signal).filter
            (fun s => decide (s.market = "WTI Crude Oil"))).filter
            (fun s => decide (s.direction = Direction.BEARISH) &&
              decide (s.confidence.value = "High")))).map Signal.signal_id)) ∧
    (detectConflicts [sigMacro1, sigTech1]).map Conflict.conflict_type =
      [ConflictType.OPPOSITE_DIRECTION, ConflictType.STRUCTURAL_TACTICAL_MISMATCH] :=
  ⟨c8_opposite_direction_conflicts [sigMacro1, sigTech1] "WTI Crude Oil", by decide⟩

/-- Claim C10: whenever a timeframe-mismatch conflict is emitted for a
market, its `conflicting_signals` list is all short-term
(intraday/daily-window) signals of that market followed by all
structural-window signals of that market; in particular every such signal —
with no condition on its direction, so neutral and agreeing signals
included — is named in the conflict. -/
theorem c10_timeframe_conflict_names_all (signals : List Signal) (m : String) :
    ∀ c ∈ detectConflicts signals,
      c.conflict_type = ConflictType.TIMEFRAME_MISMATCH → c.market = some m →
      (c.conflicting_signals =
        (((signals.filter (fun s => decide (s.market = m))).filter
            (fun s => decide (s.validity_window = ValidityWindow.INTRADAY) ||
              decide (s.validity_window = ValidityWindow.DAILY))) ++
         ((signals.filter (fun s => decide (s.market = m))).filter
            (fun s => decide (s.validity_window =
              ValidityWindow.STRUCTURAL)))).map Signal.signal_id ∧
       ∀ s ∈ signals, s.market = m →
         (s.validity_window = ValidityWindow.INTRADAY ∨
          s.validity_window = ValidityWindow.DAILY ∨
          s.validity_window = ValidityWindow.STRUCTURAL) →
         s.signal_id ∈ c.conflicting_signals) := by
  intro c hc htype hcm
  rcases (mem_detectConflicts signals c).mp hc with
    ⟨p, hp, hr⟩ | ⟨p, hp, hr⟩ | ⟨p, hp, hr⟩
  · obtain ⟨ht, _, _, _⟩ := oppositeDirectionRule_some p c hr
    rw [htype] at ht
    exact absurd ht.symm (by simp)
  · obtain ⟨ht, _, _⟩ := structuralTacticalRule_some p c hr
    rw [htype] at ht
    exact absurd ht.symm (by simp)
  · obtain ⟨_, hm, _, heq⟩ := timeframeMismatchRule_some p c hr
    rw [hcm] at hm
    obtain rfl : m = p.1 := Option.some_inj.mp hm
    have hg : p.2 = signals.filter (fun s => decide (s.market = p.1)) :=
      ((mem_groupByKey_iff _ signals p.1 p.2).mp (by
        obtain ⟨m0, g0⟩ := p
        exact hp)).2
    constructor
    · rw [heq, hg]
    · intro s hs hmkt hwin
      have hsg : s ∈ p.2 := by
        rw [hg, List.mem_filter]
        exact ⟨hs, by simp [hmkt]⟩
      rw [heq, List.mem_map]
      rcases hwin with hw | hw | hw
      · exact ⟨s, List.mem_append_left _
          (List.mem_filter.mpr ⟨hsg, by simp [hw]⟩), rfl⟩
      · exact ⟨s, List.mem_append_left _
          (List.mem_filter.mpr ⟨hsg, by simp [hw]⟩), rfl⟩
      · exact ⟨s, List.mem_append_right _
          (List.mem_filter.mpr ⟨hsg, by simp [hw]⟩), rfl⟩

/-- Claim C10 (witness): with a bullish daily signal, a bearish structural
signal and a neutral intraday signal in one market, the timeframe rule
fires and the emitted conflict names all three signals — the neutral
intraday one included. -/
theorem c10_timeframe_conflict_names_all_witness :
    (∀ c ∈ detectConflicts [sigShortBull, sigStructBear, sigShortNeutral],
      c.conflict_type = ConflictType.TIMEFRAME_MISMATCH →
      c.market = some "WTI Crude Oil" →
      (c.conflicting_signals =
        ((([sigShortBull, sigStructBear, sigShortNeutral].filter
            (fun s => decide (s.market = "WTI Crude Oil"))).filter
            (fun s => decide (s.validity_window = ValidityWindow.INTRADAY) ||
              decide (s.validity_window = ValidityWindow.DAILY))) ++
         (([sigShortBull, sigStructBear, sigShortNeutral].filter
            (fun s => decide (s.market = "WTI Crude Oil"))).filter
            (fun s => decide (s.validity_window =
              ValidityWindow.STRUCTURAL)))).map Signal.signal_id ∧
       ∀ s ∈ [sigShortBull, sigStructBear, sigShortNeutral],
         s.market = "WTI Crude Oil" →
         (s.validity_window = ValidityWindow.INTRADAY ∨
          s.validity_window = ValidityWindow.DAILY ∨
          s.validity_window = ValidityWindow.STRUCTURAL) →
         s.signal_id ∈ c.conflicting_signals)) ∧
    (detectConflicts [sigShortBull, sigStructBear, sigShortNeutral]).filterMap
      (fun c => if c.conflict_type = ConflictType.TIMEFRAME_MISMATCH
        then some c.conflicting_signals else none) = [["st1", "st3", "st2"]] :=
  ⟨c10_timeframe_conflict_names_all
    [sigShortBull, sigStructBear, sigShortNeutral] "WTI Crude Oil", by decide⟩

/-! ## Claim C9 -/

/-- The computed score of any signal lies in [-1, 1]. -/
theorem calculateSignalScore_bounds (s : Signal) :
    -1 ≤ calculateSignalScore s ∧ calculateSignalScore s ≤ 1 := by
  rcases s with ⟨_, _, _, _, _, d, c, _⟩
  cases d <;> cases c <;> norm_num [calculateSignalScore]

/-- A list sum of entries bounded by 1 in absolute value is bounded by the
list length. -/
theorem abs_sum_le_length (l : List ℚ) (h : ∀ x ∈ l, |x| ≤ 1) :
    |l.sum| ≤ (l.length : ℚ) := by
  induction l with
  | nil => simp
  | cons a t ih =>
      simp only [List.sum_cons, List.length_cons]
      calc |a + t.sum| ≤ |a| + |t.sum| := abs_add _ _
        _ ≤ 1 + (t.length : ℚ) := by
            have h1 := h a (List.mem_cons_self _ _)
            have h2 := ih (fun x hx => h x (List.mem_cons_of_mem _ hx))
            linarith
        _ = ((t.length + 1 : ℕ) : ℚ) := by push_cast; ring

/-- A sum of score-weight products is bounded by the sum of the weights when
the scores lie in [-1, 1] and the weights are non-negative. -/
theorem abs_weighted_sum_le (l : List (ℚ × ℚ))
    (hs : ∀ p ∈ l, |p.1| ≤ 1) (hw : ∀ p ∈ l, 0 ≤ p.2) :
    |(l.map (fun p => p.1 * p.2)).sum| ≤ (l.map Prod.snd).sum := by
  induction l with
  | nil => simp
  | cons a t ih =>
      simp only [List.map_cons, List.sum_cons]
      have h1 : |a.1 * a.2| ≤ a.2 := by
        rw [abs_mul]
        have ha := hs a (List.mem_cons_self _ _)
        have hb := hw a (List.mem_cons_self _ _)
        calc |a.1| * |a.2| ≤ 1 * |a.2| :=
              mul_le_mul_of_nonneg_right ha (abs_nonneg _)
          _ = a.2 := by rw [one_mul, abs_of_nonneg hb]
      have h2 := ih (fun p hp => hs p (List.mem_cons_of_mem _ hp))
        (fun p hp => hw p (List.mem_cons_of_mem _ hp))
      calc |a.1 * a.2 + (t.map (fun p => p.1 * p.2)).sum|
          ≤ |a.1 * a.2| + |(t.map (fun p => p.1 * p.2)).sum| := abs_add _ _
        _ ≤ a.2 + (t.map Prod.snd).sum := by linarith

/-- Dividing every entry distributes over a list sum. -/
theorem sum_map_div (l : List ℚ) (c : ℚ) :
    (l.map (fun x => x / c)).sum = l.sum / c := by
  induction l with
  | nil => simp
  | cons a t ih => simp [ih, add_div]

/-- A sum of non-negative entries is non-negative. -/
theorem sum_nonneg_of_nonneg (l : List ℚ) (h : ∀ x ∈ l, 0 ≤ x) :
    0 ≤ l.sum := by
  induction l with
  | nil => simp
  | cons a t ih =>
      simp only [List.sum_cons]
      have h1 := h a (List.mem_cons_self _ _)
      have h2 := ih (fun x hx => h x (List.mem_cons_of_mem _ hx))
      linarith

/-- The average confidence-weighted pillar score lies in [-1, 1] when every
stored signal score does. -/
theorem pillarScore_bounds (sigs : List Signal) (hne : sigs ≠ [])
    (hs : ∀ s ∈ sigs, ∀ x, s.score = some x → -1 ≤ x ∧ x ≤ 1) :
    |pillarScore sigs| ≤ 1 := by
  have hterm : ∀ s ∈ sigs,
      |signalScoreOf s * confidenceWeight s.confidence| ≤ 1 := by
    intro s hsmem
    rw [abs_mul]
    have hscore : |signalScoreOf s| ≤ 1 := by
      rcases hsc : s.score with _ | x
      · have := calculateSignalScore_bounds s
        rw [show signalScoreOf s = calculateSignalScore s by
          simp [signalScoreOf, hsc]]
        rw [abs_le]
        exact this
      · have := hs s hsmem x hsc
        rw [show signalScoreOf s = x by simp [signalScoreOf, hsc]]
        rw [abs_le]
        exact this
    have hcw0 : 0 ≤ confidenceWeight s.confidence := by
      cases s.confidence <;> norm_num [confidenceWeight]
    have hcw1 : confidenceWeight s.confidence ≤ 1 := by
      cases s.confidence <;> norm_num [confidenceWeight]
    calc |signalScoreOf s| * |confidenceWeight s.confidence|
        ≤ 1 * |confidenceWeight s.confidence| :=
          mul_le_mul_of_nonneg_right hscore (abs_nonneg _)
      _ = confidenceWeight s.confidence := by rw [one_mul, abs_of_nonneg hcw0]
      _ ≤ 1 := hcw1
  have hlen : (0 : ℚ) < (sigs.length : ℚ) := by
    have h0 : sigs.length ≠ 0 := fun hc => hne (List.eq_nil_of_length_eq_zero hc)
    exact_mod_cast Nat.pos_of_ne_zero h0
  have hsum : |(sigs.map (fun s =>
      signalScoreOf s * confidenceWeight s.confidence)).sum| ≤
      (sigs.length : ℚ) := by
    have := abs_sum_le_length
      (sigs.map (fun s => signalScoreOf s * confidenceWeight s.confidence))
      (by
        intro x hx
        rw [List.mem_map] at hx
        obtain ⟨s, hsmem, rfl⟩ := hx
        exact hterm s hsmem)
    simpa using this
  rw [pillarScore, abs_div, abs_of_pos hlen]
  rw [div_le_one hlen]
  exact hsum

/-- The composite weighted average of pillar scores in [-1, 1] under
non-negative weights with non-zero total is itself in [-1, 1]; the term is
the `composite_score` expression of `calculate_composite_signal`. -/
theorem compositeScore_bounds (quals : List (String × List Signal))
    (pwl : List (String × ℚ))
    (hnd : (quals.map Prod.fst).Nodup)
    (hw : ∀ k, 0 ≤ dictGetD pwl k (1/4))
    (hsc : ∀ p ∈ quals, |pillarScore p.2| ≤ 1)
    (hT : ((quals.map (fun p => (p.1, dictGetD pwl p.1 (1/4)))).map
      Prod.snd).sum ≠ 0) :
    |((quals.map (fun p => (p.1, pillarScore p.2))).map
        (fun q => q.2 * dictGetD
          ((quals.map (fun p => (p.1, dictGetD pwl p.1 (1/4)))).map
            (fun p => (p.1, p.2 /
              ((quals.map (fun p => (p.1, dictGetD pwl p.1 (1/4)))).map
                Prod.snd).sum)))
          q.1 0)).sum| ≤ 1 := by
  set W : String → ℚ := fun k => dictGetD pwl k (1/4) with hW
  set T : ℚ := ((quals.map (fun p => (p.1, W p.1))).map Prod.snd).sum with hTdef
  have hTsum : T = (quals.map (fun p => W p.1)).sum := by
    rw [hTdef, List.map_map]
    rfl
  have hT0 : 0 ≤ T := by
    rw [hTsum]
    refine sum_nonneg_of_nonneg _ ?_
    intro x hx
    rw [List.mem_map] at hx
    obtain ⟨p, _, rfl⟩ := hx
    exact hw p.1
  have hTpos : 0 < T := lt_of_le_of_ne hT0 (Ne.symm hT)
  have hNW0 : ∀ p ∈ quals,
      dictGetD (quals.map (fun p => (p.1, W p.1 / T))) p.1 0 = W p.1 / T := by
    intro p hp
    have hmem : (p.1, W p.1 / T) ∈ quals.map (fun p => (p.1, W p.1 / T)) :=
      List.mem_map.mpr ⟨p, hp, rfl⟩
    have hkeys : ((quals.map (fun p => (p.1, W p.1 / T))).map Prod.fst).Nodup := by
      rw [List.map_map]
      exact hnd
    simp only [dictGetD]
    rw [dictLookup_eq_some_of_mem hkeys hmem]
    rfl
  have hrw : ((quals.map (fun p => (p.1, pillarScore p.2))).map
        (fun q => q.2 * dictGetD
          ((quals.map (fun p => (p.1, W p.1))).map
            (fun p => (p.1, p.2 / T))) q.1 0)).sum =
      ((quals.map (fun p => (pillarScore p.2, W p.1 / T))).map
        (fun p => p.1 * p.2)).sum := by
    simp only [List.map_map]
    congr 1
    refine List.map_congr_left ?_
    intro p hp
    simp only [Function.comp_apply]
    exact congrArg (fun z => pillarScore p.2 * z) (hNW0 p hp)
  rw [hrw]
  have hbound := abs_weighted_sum_le
    (quals.map (fun p => (pillarScore p.2, W p.1 / T)))
    (by
      intro x hx
      rw [List.mem_map] at hx
      obtain ⟨p, hp, rfl⟩ := hx
      exact hsc p hp)
    (by
      intro x hx
      rw [List.mem_map] at hx
      obtain ⟨p, _, rfl⟩ := hx
      exact div_nonneg (hw p.1) (le_of_lt hTpos))
  have hwsum : ((quals.map (fun p => (pillarScore p.2, W p.1 / T))).map
      Prod.snd).sum = 1 := by
    rw [List.map_map]
    rw [show (Prod.snd ∘ fun p : String × List Signal =>
        (pillarScore p.2, W p.1 / T)) =
      ((fun x => x / T) ∘ (fun p : String × List Signal => W p.1)) from rfl]
    rw [← List.map_map, sum_map_div, ← hTsum]
    exact div_self (ne_of_gt hTpos)
  rw [hwsum] at hbound
  exact hbound

/-- The rounded value of a number in [-1, 1] stays in [-1, 1]. -/
theorem round3_bounds (x : ℚ) (h1 : -1 ≤ x) (h2 : x ≤ 1) :
    -1 ≤ round3 x ∧ round3 x ≤ 1 := by
  have hfl : Rat.floor (x * 1000 + 1/2) = ⌊x * 1000 + 1/2⌋ :=
    (Rat.floor_def' _).trans Rat.floor_def.symm
  have hup : ⌊x * 1000 + 1/2⌋ ≤ 1000 := by
    have h' : ⌊x * 1000 + 1/2⌋ < (1001 : ℤ) :=
      Int.floor_lt.mpr (by push_cast; linarith)
    omega
  have hdown : (-1000 : ℤ) ≤ ⌊x * 1000 + 1/2⌋ := by
    refine Int.le_floor.mpr ?_
    push_cast
    linarith
  unfold round3
  rw [hfl]
  constructor
  · rw [le_div_iff (by norm_num : (0:ℚ) < 1000)]
    calc (-1 : ℚ) * 1000 = ((-1000 : ℤ) : ℚ) := by norm_num
      _ ≤ (⌊x * 1000 + 1/2⌋ : ℚ) := by exact_mod_cast hdown
  · rw [div_le_iff (by norm_num : (0:ℚ) < 1000)]
    calc ((⌊x * 1000 + 1/2⌋ : ℤ) : ℚ) ≤ ((1000 : ℤ) : ℚ) := by
          exact_mod_cast hup
      _ = 1 * 1000 := by norm_num

/-- Claim C9 (counterexample): with the custom pillar weights
Macro = 2, Technical = -1 (a legal argument of the function), the
normalized weights are not non-negative and the composite score of a
bullish-high Macro signal and a bearish-high Technical signal is 3,
outside [-1, 1] — refuting the claim for arbitrary inputs. -/
theorem c9_negative_weight_composite_unbounded :
    Option.map CompositeResult.composite_score
      (calculateCompositeSignal [sigMacro1, sigTech1] "WTI Crude Oil"
        (some [("Macro", 2), ("Technical", -1)]) 1) = some 3 ∧
    ¬((3 : ℚ) ≤ 1) := by
  constructor
  · decide
  · norm_num

/-- Claim C9 (amended): whenever the pillar-weight map in effect (the
argument, or the defaults) assigns non-negative weights and every stored
signal score lies in [-1, 1], a returned composite score is a convex
combination of per-pillar scores each in [-1, 1] and therefore lies in
[-1, 1]. -/
theorem c9_composite_bounded (signals : List Signal) (market : String)
    (pw : Option (List (String × ℚ))) (m : Nat) (q : ℚ)
    (hw : ∀ p ∈ pw.getD DEFAULT_PILLAR_WEIGHTS, 0 ≤ p.2)
    (hs : ∀ s ∈ signals, ∀ x, s.score = some x → -1 ≤ x ∧ x ≤ 1)
    (hq : Option.map CompositeResult.composite_score
      (calculateCompositeSignal signals market pw m) = some q) :
    -1 ≤ q ∧ q ≤ 1 := by
  have hwk : ∀ k, 0 ≤ dictGetD (pw.getD DEFAULT_PILLAR_WEIGHTS) k (1/4) := by
    intro k
    rcases hlk : dictLookup (pw.getD DEFAULT_PILLAR_WEIGHTS) k with _ | v
    · simp only [dictGetD, hlk, Option.getD_none]
      norm_num
    · have := hw _ (mem_of_dictLookup_eq_some hlk)
      simpa [dictGetD, hlk] using this
  simp only [calculateCompositeSignal] at hq
  by_cases h1 : signals = []
  · rw [if_pos h1] at hq
    simp at hq
  rw [if_neg h1] at hq
  by_cases h2 : (groupByKey (fun s => s.category) signals).length < 2
  · rw [if_pos h2] at hq
    simp at hq
  rw [if_neg h2] at hq
  by_cases h3 : (List.map (fun p => (p.1, pillarScore p.2))
      (List.filter (fun p => decide (m ≤ p.2.length))
        (groupByKey (fun s => s.category) signals))) = []
  · rw [if_pos h3] at hq
    simp at hq
  rw [if_neg h3] at hq
  by_cases h4 : (List.map Prod.snd
      (List.map (fun p => (p.1, dictGetD (pw.getD DEFAULT_PILLAR_WEIGHTS) p.1 (1/4)))
        (List.filter (fun p => decide (m ≤ p.2.length))
          (groupByKey (fun s => s.category) signals)))).sum = 0
  · rw [if_pos h4] at hq
    simp at hq
  rw [if_neg h4] at hq
  simp only [Option.map_some'] at hq
  obtain rfl := Option.some_inj.mp hq
  have hnd : (((groupByKey (fun s => s.category) signals).filter
      (fun p => decide (m ≤ p.2.length))).map Prod.fst).Nodup := by
    have hsub : (((groupByKey (fun s => s.category) signals).filter
        (fun p => decide (m ≤ p.2.length))).map Prod.fst).Sublist
        (((groupByKey (fun s => s.category) signals)).map Prod.fst) :=
      List.Sublist.map Prod.fst (List.filter_sublist _)
    exact List.Nodup.sublist hsub (groupByKey_keys_nodup _ signals)
  have hsc : ∀ p ∈ (groupByKey (fun s => s.category) signals).filter
      (fun p => decide (m ≤ p.2.length)), |pillarScore p.2| ≤ 1 := by
    intro p hp
    have hpg : p ∈ groupByKey (fun s => s.category) signals :=
      (List.mem_filter.mp hp).1
    obtain ⟨m0, g0⟩ := p
    obtain ⟨hne, hfe⟩ := (mem_groupByKey_iff _ signals m0 g0).mp hpg
    refine pillarScore_bounds g0 (by rw [hfe]; exact hne) ?_
    intro s hsmem x hscore
    have hsig : s ∈ signals := by
      rw [hfe, List.mem_filter] at hsmem
      exact hsmem.1
    exact hs s hsig x hscore
  have hcs := compositeScore_bounds
    ((groupByKey (fun s => s.category) signals).filter
      (fun p => decide (m ≤ p.2.length)))
    (pw.getD DEFAULT_PILLAR_WEIGHTS) hnd hwk hsc h4
  rw [abs_le] at hcs
  exact round3_bounds _ hcs.1 hcs.2

/-- Claim C9 (witness): under the default weights the composite of a
bullish-high Macro signal and a bearish-high Technical signal has score
273/1000, within [-1, 1]. -/
theorem c9_composite_bounded_witness :
    Option.map CompositeResult.composite_score
      (calculateCompositeSignal [sigMacro1, sigTech1] "WTI Crude Oil"
        none 1) = some (mkRat 273 1000) ∧
    (-1 ≤ mkRat 273 1000 ∧ mkRat 273 1000 ≤ 1) :=
  ⟨by decide,
   c9_composite_bounded [sigMacro1, sigTech1] "WTI Crude Oil" none 1
     (mkRat 273 1000) (by decide) (by decide) (by decide)⟩

/-! ## Claim C1 -/

/-- Appending an entry keyed by a different signal id does not change who is
the latest snapshot of an identity. -/
theorem isLatest_append_ne (p : Store) (e : (String × Int) × SignalSnapshot)
    (target : Int) (sid : String) (snap : SignalSnapshot) (hne : sid ≠ e.1.1) :
    IsLatest (p ++ [e]) target sid snap ↔ IsLatest p target sid snap := by
  constructor
  · rintro ⟨d, hmem, hdle, hmax⟩
    rcases List.mem_append.mp hmem with hp | he
    · refine ⟨d, hp, hdle, ?_⟩
      intro d' snap' hm hq
      exact hmax d' snap' (List.mem_append_left _ hm) hq
    · rw [List.mem_singleton] at he
      exact absurd (congrArg (fun x => x.1.1) he) hne
  · rintro ⟨d, hmem, hdle, hmax⟩
    refine ⟨d, List.mem_append_left _ hmem, hdle, ?_⟩
    intro d' snap' hm hq
    rcases List.mem_append.mp hm with hp | he
    · exact hmax d' snap' hp hq
    · rw [List.mem_singleton] at he
      exact absurd (congrArg (fun x => x.1.1) he) hne

/-- One step of the `get_signals_at_date` fold preserves the invariant that
the accumulator holds, per identity, the latest snapshot at or before the
target among the processed entries. -/
theorem bestStep_inv (target : Int) (p : Store)
    (acc : List (String × SignalSnapshot)) (e : (String × Int) × SignalSnapshot)
    (hwf : StoreWF (p ++ [e])) (hnd : ((p ++ [e]).map Prod.fst).Nodup)
    (hiff : ∀ sid snap, dictLookup acc sid = some snap ↔ IsLatest p target sid snap)
    (hnone : ∀ sid, dictLookup acc sid = none →
      ∀ d snap, ((sid, d), snap) ∈ p → ¬d ≤ target)
    (hacc : (acc.map Prod.fst).Nodup) :
    (∀ sid snap, dictLookup (bestSnapshotStep target acc e) sid = some snap ↔
      IsLatest (p ++ [e]) target sid snap) ∧
    (∀ sid, dictLookup (bestSnapshotStep target acc e) sid = none →
      ∀ d snap, ((sid, d), snap) ∈ p ++ [e] → ¬d ≤ target) ∧
    ((bestSnapshotStep target acc e).map Prod.fst).Nodup := by
  obtain ⟨⟨sid0, d0⟩, snap0⟩ := e
  by_cases hd0 : d0 ≤ target
  swap
  · have hstep : bestSnapshotStep target acc ((sid0, d0), snap0) = acc := by
      simp [bestSnapshotStep, hd0]
    rw [hstep]
    refine ⟨?_, ?_, hacc⟩
    · intro sid snap
      rw [hiff sid snap]
      constructor
      · rintro ⟨d, hmem, hdle, hmax⟩
        refine ⟨d, List.mem_append_left _ hmem, hdle, ?_⟩
        intro d' snap' hm hq
        rcases List.mem_append.mp hm with hp' | he'
        · exact hmax d' snap' hp' hq
        · rw [List.mem_singleton] at he'
          obtain ⟨h1, _⟩ := Prod.mk.injEq .. ▸ he'
          obtain ⟨_, h3⟩ := Prod.mk.injEq .. ▸ h1
          exact absurd (h3 ▸ hq) hd0
      · rintro ⟨d, hmem, hdle, hmax⟩
        rcases List.mem_append.mp hmem with hp' | he'
        · refine ⟨d, hp', hdle, ?_⟩
          intro d' snap' hm hq
          exact hmax d' snap' (List.mem_append_left _ hm) hq
        · rw [List.mem_singleton] at he'
          obtain ⟨h1, _⟩ := Prod.mk.injEq .. ▸ he'
          obtain ⟨_, h3⟩ := Prod.mk.injEq .. ▸ h1
          exact absurd (h3 ▸ hdle) hd0
    · intro sid hl d snap hmem hq
      rcases List.mem_append.mp hmem with hp' | he'
      · exact hnone sid hl d snap hp' hq
      · rw [List.mem_singleton] at he'
        obtain ⟨h1, _⟩ := Prod.mk.injEq .. ▸ he'
        obtain ⟨_, h3⟩ := Prod.mk.injEq .. ▸ h1
        exact absurd (h3 ▸ hq) hd0
  · -- the entry qualifies (d0 ≤ target)
    have hkey0 : ((sid0, d0) : String × Int) ∉ p.map Prod.fst := by
      have := hnd
      rw [List.map_append, List.nodup_append] at this
      intro hc
      exact this.2.2 hc (by simp)
    rcases hl : dictLookup acc sid0 with _ | prev
    · -- no previous best for sid0: insert
      have hstep : bestSnapshotStep target acc ((sid0, d0), snap0) =
          dictInsert acc sid0 snap0 := by
        simp [bestSnapshotStep, hd0, hl]
      have hnoq : ∀ d snap, ((sid0, d), snap) ∈ p → ¬d ≤ target :=
        fun d snap hm hq => hnone sid0 hl d snap hm hq
      rw [hstep]
      refine ⟨?_, ?_, keys_dictInsert_nodup _ _ _ hacc⟩
      · intro sid snap
        by_cases hsid : sid = sid0
        · subst hsid
          rw [dictLookup_insert_self]
          constructor
          · rintro h
            obtain rfl := (Option.some_inj.mp h).symm
            refine ⟨d0, List.mem_append_right _ (by simp), hd0, ?_⟩
            intro d' snap' hm hq
            rcases List.mem_append.mp hm with hp' | he'
            · exact absurd hq (hnoq d' snap' hp')
            · rw [List.mem_singleton] at he'
              obtain ⟨h1, _⟩ := Prod.mk.injEq .. ▸ he'
              obtain ⟨_, h3⟩ := Prod.mk.injEq .. ▸ h1
              omega
          · rintro ⟨d, hmem, hdle, hmax⟩
            rcases List.mem_append.mp hmem with hp' | he'
            · exact absurd hdle (hnoq d snap hp')
            · rw [List.mem_singleton] at he'
              obtain ⟨h1, h2⟩ := Prod.mk.injEq .. ▸ he'
              rw [h2]
        · rw [dictLookup_insert_ne _ _ _ _ hsid, hiff sid snap]
          exact (isLatest_append_ne p ((sid0, d0), snap0) target sid snap hsid).symm
      · intro sid hlk d snap hmem hq
        by_cases hsid : sid = sid0
        · subst hsid
          rw [dictLookup_insert_self] at hlk
          exact absurd hlk (by simp)
        · rw [dictLookup_insert_ne _ _ _ _ hsid] at hlk
          rcases List.mem_append.mp hmem with hp' | he'
          · exact hnone sid hlk d snap hp' hq
          · rw [List.mem_singleton] at he'
            obtain ⟨h1, _⟩ := Prod.mk.injEq .. ▸ he'
            obtain ⟨h2, _⟩ := Prod.mk.injEq .. ▸ h1
            exact hsid h2
    · -- a previous best exists
      have hlat := (hiff sid0 prev).mp hl
      obtain ⟨dp, hdpmem, hdple, hdpmax⟩ := hlat
      have hprevdate : prev.snapshot_date = dp :=
        (hwf _ (List.mem_append_left _ hdpmem)).2
      by_cases hgt : d0 > prev.snapshot_date
      · -- strictly newer: replace
        rw [hprevdate] at hgt
        have hstep : bestSnapshotStep target acc ((sid0, d0), snap0) =
            dictInsert acc sid0 snap0 := by
          simp [bestSnapshotStep, hd0, hl, hprevdate, hgt]
        rw [hstep]
        refine ⟨?_, ?_, keys_dictInsert_nodup _ _ _ hacc⟩
        · intro sid snap
          by_cases hsid : sid = sid0
          · subst hsid
            rw [dictLookup_insert_self]
            constructor
            · rintro h
              obtain rfl := (Option.some_inj.mp h).symm
              refine ⟨d0, List.mem_append_right _ (by simp), hd0, ?_⟩
              intro d' snap' hm hq
              rcases List.mem_append.mp hm with hp' | he'
              · have := hdpmax d' snap' hp' hq
                omega
              · rw [List.mem_singleton] at he'
                obtain ⟨h1, _⟩ := Prod.mk.injEq .. ▸ he'
                obtain ⟨_, h3⟩ := Prod.mk.injEq .. ▸ h1
                omega
            · rintro ⟨d, hmem, hdle, hmax⟩
              have hd0led : d0 ≤ d :=
                hmax d0 snap0 (List.mem_append_right _ (by simp)) hd0
              rcases List.mem_append.mp hmem with hp' | he'
              · have := hdpmax d snap hp' hdle
                omega
              · rw [List.mem_singleton] at he'
                obtain ⟨h1, h2⟩ := Prod.mk.injEq .. ▸ he'
                rw [h2]
          · rw [dictLookup_insert_ne _ _ _ _ hsid, hiff sid snap]
            exact (isLatest_append_ne p ((sid0, d0), snap0) target sid snap hsid).symm
        · intro sid hlk d snap hmem hq
          by_cases hsid : sid = sid0
          · subst hsid
            rw [dictLookup_insert_self] at hlk
            exact absurd hlk (by simp)
          · rw [dictLookup_insert_ne _ _ _ _ hsid] at hlk
            rcases List.mem_append.mp hmem with hp' | he'
            · exact hnone sid hlk d snap hp' hq
            · rw [List.mem_singleton] at he'
              obtain ⟨h1, _⟩ := Prod.mk.injEq .. ▸ he'
              obtain ⟨h2, _⟩ := Prod.mk.injEq .. ▸ h1
              exact hsid h2
      · -- not newer: keep the previous best
        rw [hprevdate] at hgt
        have hstep : bestSnapshotStep target acc ((sid0, d0), snap0) = acc := by
          simp [bestSnapshotStep, hd0, hl, hprevdate, hgt]
        rw [hstep]
        refine ⟨?_, ?_, hacc⟩
        · intro sid snap
          by_cases hsid : sid = sid0
          · subst hsid
            rw [hl]
            constructor
            · rintro h
              obtain rfl := (Option.some_inj.mp h).symm
              refine ⟨dp, List.mem_append_left _ hdpmem, hdple, ?_⟩
              intro d' snap' hm hq
              rcases List.mem_append.mp hm with hp' | he'
              · exact hdpmax d' snap' hp' hq
              · rw [List.mem_singleton] at he'
                obtain ⟨h1, _⟩ := Prod.mk.injEq .. ▸ he'
                obtain ⟨_, h3⟩ := Prod.mk.injEq .. ▸ h1
                omega
            · rintro ⟨d, hmem, hdle, hmax⟩
              rcases List.mem_append.mp hmem with hp' | he'
              · have hlp : IsLatest p target sid snap := by
                  refine ⟨d, hp', hdle, ?_⟩
                  intro d' snap' hm hq
                  exact hmax d' snap' (List.mem_append_left _ hm) hq
                have := (hiff sid snap).mpr hlp
                rw [hl] at this
                exact this
              · rw [List.mem_singleton] at he'
                obtain ⟨h1, _⟩ := Prod.mk.injEq .. ▸ he'
                obtain ⟨_, h3⟩ := Prod.mk.injEq .. ▸ h1
                have hdpled : dp ≤ d :=
                  hmax dp prev (List.mem_append_left _ hdpmem) hdple
                have hdd0 : d = d0 := h3
                have hdpd0 : dp = d0 := by omega
                have hmemmap : ((sid, dp) : String × Int) ∈ p.map Prod.fst :=
                  List.mem_map.mpr ⟨((sid, dp), prev), hdpmem, rfl⟩
                rw [hdpd0] at hmemmap
                exact absurd hmemmap hkey0
          · rw [hiff sid snap]
            exact (isLatest_append_ne p ((sid0, d0), snap0) target sid snap hsid).symm
        · intro sid hlk d snap hmem hq
          by_cases hsid : sid = sid0
          · subst hsid
            rw [hl] at hlk
            exact absurd hlk (by simp)
          · rcases List.mem_append.mp hmem with hp' | he'
            · exact hnone sid hlk d snap hp' hq
            · rw [List.mem_singleton] at he'
              obtain ⟨h1, _⟩ := Prod.mk.injEq .. ▸ he'
              obtain ⟨h2, _⟩ := Prod.mk.injEq .. ▸ h1
              exact hsid h2

/-- The `get_signals_at_date` fold computes, per identity, the latest
snapshot at or before the target date. -/
theorem bestFold_spec (target : Int) :
    ∀ (r p : Store) (acc : List (String × SignalSnapshot)),
    StoreWF (p ++ r) → (((p ++ r).map Prod.fst).Nodup) →
    (∀ sid snap, dictLookup acc sid = some snap ↔ IsLatest p target sid snap) →
    (∀ sid, dictLookup acc sid = none →
      ∀ d snap, ((sid, d), snap) ∈ p → ¬d ≤ target) →
    ((acc.map Prod.fst).Nodup) →
    (∀ sid snap,
      dictLookup (r.foldl (bestSnapshotStep target) acc) sid = some snap ↔
        IsLatest (p ++ r) target sid snap) ∧
    (∀ sid, dictLookup (r.foldl (bestSnapshotStep target) acc) sid = none →
      ∀ d snap, ((sid, d), snap) ∈ p ++ r → ¬d ≤ target) ∧
    (((r.foldl (bestSnapshotStep target) acc).map Prod.fst).Nodup) := by
  intro r
  induction r with
  | nil =>
      intro p acc hwf hnd hiff hnone hacc
      simp only [List.append_nil, List.foldl_nil]
      exact ⟨hiff, hnone, hacc⟩
  | cons e r' ih =>
      intro p acc hwf hnd hiff hnone hacc
      have hassoc : p ++ e :: r' = (p ++ [e]) ++ r' :=
        (List.append_assoc p [e] r').symm
      rw [hassoc] at hwf hnd ⊢
      have hwfe : StoreWF (p ++ [e]) := by
        intro x hx
        exact hwf x (List.mem_append_left _ hx)
      have hnde : ((p ++ [e]).map Prod.fst).Nodup := by
        have h := hnd
        rw [List.map_append] at h
        exact h.of_append_left
      obtain ⟨hiff', hnone', hacc'⟩ :=
        bestStep_inv target p acc e hwfe hnde hiff hnone hacc
      exact ih (p ++ [e]) (bestSnapshotStep target acc e) hwf hnd hiff' hnone' hacc'

/-- Claim C1 (counterexample): identity "A" is snapshotted only on day 1 and
identity "B" on day 2; `get_signals_at_date` on day 2 — a date with an exact
snapshot — returns A's day-1 signal alongside B's, not precisely the day-2
snapshot's signal set. -/
theorem c1_exact_snapshot_not_precise :
    getSignalsAtDate storeAB [] 2 = [sigA, sigB] ∧
    (storeAB.filter (fun e => decide (e.1.2 = 2))).map (fun e => e.2.signal) =
      [sigB] ∧
    sigA ≠ sigB := by
  refine ⟨by decide, by decide, by decide⟩

/-- Claim C1 (amended): `get_signals_at_date` returns, for each identity
with a snapshot dated at or before the target, the signal of its latest such
snapshot; when no snapshot at or before the target exists it returns the
live current signal set; and the result is precisely the target-dated
snapshot set only under the extra condition that every identity with a
qualifying snapshot also has one dated exactly at the target. -/
theorem c1_as_of_latest_per_identity (store : Store) (cur : List Signal)
    (target : Int) (s : Signal)
    (hwf : StoreWF store) (hnd : (store.map Prod.fst).Nodup) :
    ((∃ e ∈ store, e.1.2 ≤ target) →
      (s ∈ getSignalsAtDate store cur target ↔
        ∃ sid snap, IsLatest store target sid snap ∧ snap.signal = s)) ∧
    ((¬∃ e ∈ store, e.1.2 ≤ target) → getSignalsAtDate store cur target = cur) ∧
    ((∀ sid d snap, ((sid, d), snap) ∈ store → d ≤ target →
        ∃ snap', ((sid, target), snap') ∈ store) →
      (∃ e ∈ store, e.1.2 ≤ target) →
      (s ∈ getSignalsAtDate store cur target ↔
        ∃ sid snap, ((sid, target), snap) ∈ store ∧ snap.signal = s)) := by
  obtain ⟨hiff, hnone, hacc⟩ := bestFold_spec target store [] []
    (by simpa using hwf) (by simpa using hnd)
    (by
      intro sid snap
      constructor
      · intro h
        exact absurd h (by simp [dictLookup])
      · rintro ⟨d, hmem, _, _⟩
        simp at hmem)
    (by intro sid _ d snap hmem; simp at hmem)
    (by simp)
  rw [List.nil_append] at hiff hnone
  have hmem_iff : ∀ t : Signal,
      t ∈ (store.foldl (bestSnapshotStep target) []).map (fun p => p.2.signal) ↔
      ∃ sid snap, IsLatest store target sid snap ∧ snap.signal = t := by
    intro t
    rw [List.mem_map]
    constructor
    · rintro ⟨⟨sid, snap⟩, hmem, rfl⟩
      exact ⟨sid, snap, (hiff sid snap).mp
        (dictLookup_eq_some_of_mem hacc hmem), rfl⟩
    · rintro ⟨sid, snap, hlat, rfl⟩
      exact ⟨(sid, snap), mem_of_dictLookup_eq_some ((hiff sid snap).mpr hlat),
        rfl⟩
  have hempty : (store.foldl (bestSnapshotStep target) []) = [] ↔
      ¬∃ e ∈ store, e.1.2 ≤ target := by
    constructor
    · rintro hnil ⟨e, hmem, hq⟩
      obtain ⟨⟨sid, d⟩, snap⟩ := e
      have := hnone sid (by rw [hnil]; rfl) d snap hmem
      exact this hq
    · intro hno
      rcases hfold : store.foldl (bestSnapshotStep target) [] with _ | ⟨⟨sid, snap⟩, t⟩
      · rfl
      · have hlk : dictLookup (store.foldl (bestSnapshotStep target) []) sid =
            some snap := by
          rw [hfold]
          simp [dictLookup]
        obtain ⟨d, hmem, hq, _⟩ := (hiff sid snap).mp hlk
        exact absurd ⟨((sid, d), snap), hmem, hq⟩ hno
  have hresult : (∃ e ∈ store, e.1.2 ≤ target) →
      getSignalsAtDate store cur target =
        (store.foldl (bestSnapshotStep target) []).map (fun p => p.2.signal) := by
    intro hex
    have hne : store.foldl (bestSnapshotStep target) [] ≠ [] :=
      fun hc => (hempty.mp hc) hex
    rcases hfold : store.foldl (bestSnapshotStep target) [] with _ | ⟨a, t⟩
    · exact absurd hfold hne
    · simp [getSignalsAtDate, hfold]
  refine ⟨?_, ?_, ?_⟩
  · intro hex
    rw [hresult hex]
    exact hmem_iff s
  · intro hno
    have hnil : (store.foldl (bestSnapshotStep target) []) = [] := hempty.mpr hno
    simp [getSignalsAtDate, hnil]
  · intro hcov hex
    have hlat_iff : ∀ sid snap, IsLatest store target sid snap ↔
        ((sid, target), snap) ∈ store := by
      intro sid snap
      constructor
      · rintro ⟨d, hmem, hdle, hmax⟩
        obtain ⟨snap', hmem'⟩ := hcov sid d snap hmem hdle
        have hle : target ≤ d := hmax target snap' hmem' le_rfl
        have hdt : d = target := le_antisymm hdle hle
        rw [hdt] at hmem
        exact hmem
      · intro hmem
        exact ⟨target, hmem, le_rfl, fun d' snap' _ hq => hq⟩
    rw [hresult hex, hmem_iff s]
    constructor
    · rintro ⟨sid, snap, hlat, rfl⟩
      exact ⟨sid, snap, (hlat_iff sid snap).mp hlat, rfl⟩
    · rintro ⟨sid, snap, hmem, rfl⟩
      exact ⟨sid, snap, (hlat_iff sid snap).mpr hmem, rfl⟩

/-- Claim C1 (witness): on the two-entry store, identity "A" appears in the
day-2 view through its day-1 snapshot, matching the per-identity-latest
characterization. -/
theorem c1_as_of_latest_per_identity_witness :
    StoreWF storeAB ∧ (storeAB.map Prod.fst).Nodup ∧
    (((∃ e ∈ storeAB, e.1.2 ≤ 2) →
      (sigA ∈ getSignalsAtDate storeAB [] 2 ↔
        ∃ sid snap, IsLatest storeAB 2 sid snap ∧ snap.signal = sigA)) ∧
    ((¬∃ e ∈ storeAB, e.1.2 ≤ 2) → getSignalsAtDate storeAB [] 2 = []) ∧
    ((∀ sid d snap, ((sid, d), snap) ∈ storeAB → d ≤ 2 →
        ∃ snap', ((sid, 2), snap') ∈ storeAB) →
      (∃ e ∈ storeAB, e.1.2 ≤ 2) →
      (sigA ∈ getSignalsAtDate storeAB [] 2 ↔
        ∃ sid snap, ((sid, 2), snap) ∈ storeAB ∧ snap.signal = sigA))) :=
  ⟨by unfold StoreWF; decide, by decide,
   c1_as_of_latest_per_identity storeAB [] 2 sigA
     (by unfold StoreWF; decide) (by decide)⟩

/-! ## Claim C2 -/

/-- With distinct signal ids, the dict `{s.signal_id: s}` is the list of
(id, signal) pairs in order. -/
theorem currentSignalMap_eq (cur : List Signal)
    (hnd : (cur.map Signal.signal_id).Nodup) :
    currentSignalMap cur = cur.map (fun s => (s.signal_id, s)) := by
  induction cur using List.reverseRecOn with
  | nil => rfl
  | append_singleton l s ih =>
      have hndl : (l.map Signal.signal_id).Nodup := by
        have h := hnd
        rw [List.map_append] at h
        exact h.of_append_left
      have hfold : currentSignalMap (l ++ [s]) =
          dictInsert (currentSignalMap l) s.signal_id s := by
        simp [currentSignalMap, List.foldl_append]
      have hnotin : s.signal_id ∉ l.map Signal.signal_id := by
        have h := hnd
        rw [List.map_append, List.nodup_append] at h
        intro hc
        exact h.2.2 hc (by simp)
      have hnone : dictLookup (currentSignalMap l) s.signal_id = none := by
        rw [ih hndl]
        rw [dictLookup_eq_none_iff]
        intro v hv
        rw [List.mem_map] at hv
        obtain ⟨s', hs', heq⟩ := hv
        have : s'.signal_id = s.signal_id := congrArg Prod.fst heq
        exact hnotin (this ▸ List.mem_map.mpr ⟨s', hs', rfl⟩)
      rw [hfold, dictInsert_of_lookup_none _ _ _ hnone, ih hndl, List.map_append]
      rfl

/-- With distinct store keys, the dict of signals snapshotted exactly on
`since_date` is the filtered store, keyed by signal id. -/
theorem historicalSignalMap_eq (store : Store) (since : Int)
    (hnd : (store.map Prod.fst).Nodup) :
    historicalSignalMap store since =
      (store.filter (fun e => decide (e.1.2 = since))).map
        (fun e => (e.1.1, e.2.signal)) := by
  induction store using List.reverseRecOn with
  | nil => rfl
  | append_singleton l e ih =>
      have hndl : (l.map Prod.fst).Nodup := by
        have h := hnd
        rw [List.map_append] at h
        exact h.of_append_left
      have hkeynotin : e.1 ∉ l.map Prod.fst := by
        have h := hnd
        rw [List.map_append, List.nodup_append] at h
        intro hc
        exact h.2.2 hc (by simp)
      have hfold : historicalSignalMap (l ++ [e]) since =
          (if e.1.2 = since then
            dictInsert (historicalSignalMap l since) e.1.1 e.2.signal
          else historicalSignalMap l since) := by
        simp [historicalSignalMap, List.foldl_append]
      rw [hfold, List.filter_append]
      by_cases hdate : e.1.2 = since
      · have hfe : List.filter (fun e => decide (e.1.2 = since)) [e] = [e] := by
          simp [List.filter_singleton, hdate]
        have hnone : dictLookup (historicalSignalMap l since) e.1.1 = none := by
          rw [ih hndl, dictLookup_eq_none_iff]
          intro v hv
          rw [List.mem_map] at hv
          obtain ⟨e', he', heq⟩ := hv
          have he'l : e' ∈ l := (List.mem_filter.mp he').1
          have he'date : e'.1.2 = since := by
            have := (List.mem_filter.mp he').2
            simpa using this
          obtain ⟨hsid, _⟩ := Prod.mk.injEq .. ▸ heq
          have : e'.1 = e.1 := by
            obtain ⟨⟨a, b⟩, c⟩ := e'
            obtain ⟨⟨a', b'⟩, c'⟩ := e
            simp only at hsid he'date hdate
            simp [hsid, he'date, hdate]
          exact hkeynotin (this ▸ List.mem_map.mpr ⟨e', he'l, rfl⟩)
        rw [if_pos hdate, dictInsert_of_lookup_none _ _ _ hnone, ih hndl,
          hfe, List.map_append]
        rfl
      · have hfe : List.filter (fun e => decide (e.1.2 = since)) [e] = [] := by
          simp [List.filter_singleton, hdate]
        rw [if_neg hdate, hfe, List.append_nil, ih hndl]

/-- Membership in the `since`-dated signal dict is existence of a snapshot
dated exactly `since`. -/
theorem mem_historicalSignalMap (store : Store) (since : Int)
    (hnd : (store.map Prod.fst).Nodup) (sid : String) (g : Signal) :
    (sid, g) ∈ historicalSignalMap store since ↔
      ∃ snap, ((sid, since), snap) ∈ store ∧ snap.signal = g := by
  rw [historicalSignalMap_eq store since hnd, List.mem_map]
  constructor
  · rintro ⟨e, hef, heq⟩
    have hel : e ∈ store := (List.mem_filter.mp hef).1
    have hedate : e.1.2 = since := by
      simpa using (List.mem_filter.mp hef).2
    obtain ⟨hsid, hsig⟩ := Prod.mk.injEq .. ▸ heq
    refine ⟨e.2, ?_, hsig⟩
    have hkey : e.1 = (sid, since) := by
      obtain ⟨⟨a, b⟩, c⟩ := e
      simp only at hsid hedate
      simp [hsid, hedate]
    rw [← hkey]
    exact hel
  · rintro ⟨snap, hmem, hsig⟩
    refine ⟨((sid, since), snap), ?_, ?_⟩
    · rw [List.mem_filter]
      exact ⟨hmem, by simp⟩
    · simp [hsig]

/-- The `since`-dated signal dict has distinct keys. -/
theorem historicalSignalMap_keys_nodup (store : Store) (since : Int)
    (hnd : (store.map Prod.fst).Nodup) :
    ((historicalSignalMap store since).map Prod.fst).Nodup := by
  rw [historicalSignalMap_eq store since hnd, List.map_map]
  have hsub : ((store.filter (fun e => decide (e.1.2 = since))).map
      Prod.fst).Nodup :=
    List.Nodup.sublist (List.Sublist.map _ (List.filter_sublist _)) hnd
  have hinj := List.inj_on_of_nodup_map hsub
  refine List.Nodup.map_on ?_ (List.Nodup.of_map _ hsub)
  intro x hx y hy hxy
  have hxd : x.1.2 = since := by simpa using (List.mem_filter.mp hx).2
  have hyd : y.1.2 = since := by simpa using (List.mem_filter.mp hy).2
  refine hinj hx hy ?_
  have hxy1 : x.1.1 = y.1.1 := hxy
  obtain ⟨⟨a, b⟩, c⟩ := x
  obtain ⟨⟨a', b'⟩, c'⟩ := y
  simp only at hxy1 hxd hyd
  simp [hxy1, hxd, hyd]

/-- Dict lookup into the `since`-dated signal dict finds exactly the
snapshot stored under `(sid, since)`. -/
theorem historicalSignalMap_lookup (store : Store) (since : Int)
    (hnd : (store.map Prod.fst).Nodup) (sid : String) (g : Signal) :
    dictLookup (historicalSignalMap store since) sid = some g ↔
      ∃ snap, ((sid, since), snap) ∈ store ∧ snap.signal = g := by
  rw [← mem_historicalSignalMap store since hnd sid g]
  exact ⟨mem_of_dictLookup_eq_some,
    dictLookup_eq_some_of_mem (historicalSignalMap_keys_nodup store since hnd)⟩

/-- Lookup into the `since`-dated signal dict fails exactly when no snapshot
is stored under `(sid, since)`. -/
theorem historicalSignalMap_lookup_none (store : Store) (since : Int)
    (hnd : (store.map Prod.fst).Nodup) (sid : String) :
    dictLookup (historicalSignalMap store since) sid = none ↔
      ¬∃ snap, ((sid, since), snap) ∈ store := by
  rw [dictLookup_eq_none_iff]
  constructor
  · rintro h ⟨snap, hmem⟩
    exact h snap.signal
      ((mem_historicalSignalMap store since hnd sid snap.signal).mpr
        ⟨snap, hmem, rfl⟩)
  · rintro h g hg
    obtain ⟨snap, hmem, _⟩ :=
      (mem_historicalSignalMap store since hnd sid g).mp hg
    exact h ⟨snap, hmem⟩

/-- Dict lookup into the current-signal dict finds exactly the current
signal carrying that id. -/
theorem currentSignalMap_lookup (cur : List Signal)
    (hnd : (cur.map Signal.signal_id).Nodup) (sid : String) (s : Signal) :
    dictLookup (currentSignalMap cur) sid = some s ↔
      s ∈ cur ∧ s.signal_id = sid := by
  have hkeys : ((currentSignalMap cur).map Prod.fst).Nodup := by
    rw [currentSignalMap_eq cur hnd, List.map_map]
    exact hnd
  constructor
  · intro h
    have := mem_of_dictLookup_eq_some h
    rw [currentSignalMap_eq cur hnd, List.mem_map] at this
    obtain ⟨s', hs', heq⟩ := this
    obtain ⟨hid, hval⟩ := Prod.mk.injEq .. ▸ heq
    rw [← hval]
    exact ⟨hs', hval ▸ hid⟩
  · rintro ⟨hmem, rfl⟩
    refine dictLookup_eq_some_of_mem hkeys ?_
    rw [currentSignalMap_eq cur hnd, List.mem_map]
    exact ⟨s, hmem, rfl⟩

/-- Lookup into the current-signal dict fails exactly when no current signal
carries that id. -/
theorem currentSignalMap_lookup_none (cur : List Signal)
    (hnd : (cur.map Signal.signal_id).Nodup) (sid : String) :
    dictLookup (currentSignalMap cur) sid = none ↔
      ∀ s ∈ cur, s.signal_id ≠ sid := by
  rw [dictLookup_eq_none_iff]
  constructor
  · intro h s hs hc
    exact h s (by
      rw [currentSignalMap_eq cur hnd, List.mem_map]
      exact ⟨s, hs, by rw [hc]⟩)
  · intro h v hv
    rw [currentSignalMap_eq cur hnd, List.mem_map] at hv
    obtain ⟨s', hs', heq⟩ := hv
    obtain ⟨hid, hval⟩ := Prod.mk.injEq .. ▸ heq
    exact h s' hs' hid

/-- A `filterMap` whose function succeeds on every element is a `map`. -/
theorem filterMap_of_all_some {α β : Type} (f : α → Option β) (g : α → β)
    (l : List α) (h : ∀ a ∈ l, f a = some (g a)) : l.filterMap f = l.map g := by
  induction l with
  | nil => rfl
  | cons a t ih =>
      rw [List.filterMap_cons, h a (List.mem_cons_self _ _), List.map_cons,
        ih (fun x hx => h x (List.mem_cons_of_mem _ hx))]

/-- Claim C2: `get_changes_since` compares the current set against the
snapshots dated exactly `since` (no fallback): an identity is in
`new_signals` iff present now and absent then, in `removed_signals` iff
present then and absent now, in `changed_direction` / `changed_confidence`
iff present in both with a differing direction / confidence (old and new
values recorded); an identity present in both with unchanged direction and
confidence appears in no bucket; and with no snapshot dated exactly `since`
every current signal is reported as new and the other buckets are empty. -/
theorem c2_changes_since_buckets (store : Store) (cur : List Signal)
    (since : Int) (sid : String)
    (hndc : (cur.map Signal.signal_id).Nodup)
    (hnds : (store.map Prod.fst).Nodup) :
    ((∃ e ∈ (getChangesSince store cur since).new_signals, e.signal_id = sid) ↔
      ((∃ s ∈ cur, s.signal_id = sid) ∧ ¬∃ snap, ((sid, since), snap) ∈ store)) ∧
    ((∃ e ∈ (getChangesSince store cur since).removed_signals, e.signal_id = sid) ↔
      ((∃ snap, ((sid, since), snap) ∈ store) ∧ ¬∃ s ∈ cur, s.signal_id = sid)) ∧
    ((∃ e ∈ (getChangesSince store cur since).changed_direction, e.signal_id = sid) ↔
      (∃ s snap, s ∈ cur ∧ s.signal_id = sid ∧ ((sid, since), snap) ∈ store ∧
        s.direction ≠ snap.signal.direction)) ∧
    (∀ e ∈ (getChangesSince store cur since).changed_direction,
      ∃ s snap, s ∈ cur ∧ s.signal_id = e.signal_id ∧
        ((e.signal_id, since), snap) ∈ store ∧
        s.direction ≠ snap.signal.direction ∧
        e.old_direction = snap.signal.direction.value ∧
        e.new_direction = s.direction.value) ∧
    ((∃ e ∈ (getChangesSince store cur since).changed_confidence, e.signal_id = sid) ↔
      (∃ s snap, s ∈ cur ∧ s.signal_id = sid ∧ ((sid, since), snap) ∈ store ∧
        s.confidence ≠ snap.signal.confidence)) ∧
    (∀ e ∈ (getChangesSince store cur since).changed_confidence,
      ∃ s snap, s ∈ cur ∧ s.signal_id = e.signal_id ∧
        ((e.signal_id, since), snap) ∈ store ∧
        s.confidence ≠ snap.signal.confidence ∧
        e.old_confidence = snap.signal.confidence.value ∧
        e.new_confidence = s.confidence.value) ∧
    (∀ s snap, s ∈ cur → s.signal_id = sid → ((sid, since), snap) ∈ store →
      s.direction = snap.signal.direction → s.confidence = snap.signal.confidence →
      ((¬∃ e ∈ (getChangesSince store cur since).new_signals, e.signal_id = sid) ∧
       (¬∃ e ∈ (getChangesSince store cur since).changed_direction, e.signal_id = sid) ∧
       (¬∃ e ∈ (getChangesSince store cur since).changed_confidence, e.signal_id = sid) ∧
       (¬∃ e ∈ (getChangesSince store cur since).removed_signals, e.signal_id = sid))) ∧
    ((∀ e ∈ store, e.1.2 ≠ since) →
      ((getChangesSince store cur since).new_signals.map NewSignalEntry.signal_id =
        cur.map Signal.signal_id ∧
       (getChangesSince store cur since).changed_direction = [] ∧
       (getChangesSince store cur since).changed_confidence = [] ∧
       (getChangesSince store cur since).removed_signals = [])) := by
  have hcm := currentSignalMap_eq cur hndc
  have hcurinj := List.inj_on_of_nodup_map hndc
  have hsnapinj : ∀ snap snap' : SignalSnapshot, ((sid, since), snap) ∈ store →
      ((sid, since), snap') ∈ store → snap = snap' := by
    intro snap snap' h h'
    have h1 := dictLookup_eq_some_of_mem hnds h
    have h2 := dictLookup_eq_some_of_mem hnds h'
    rw [h1] at h2
    exact Option.some_inj.mp h2
  have hnew : ∀ e, e ∈ (getChangesSince store cur since).new_signals ↔
      ∃ s ∈ cur,
        dictLookup (historicalSignalMap store since) s.signal_id = none ∧
        e = ⟨s.signal_id, s.name, s.market, s.direction.value,
          s.confidence.value⟩ := by
    intro e
    simp only [getChangesSince]
    rw [List.mem_filterMap, hcm]
    constructor
    · rintro ⟨p, hp, hF⟩
      rw [List.mem_map] at hp
      obtain ⟨s, hs, rfl⟩ := hp
      dsimp only at hF
      rcases hlk : dictLookup (historicalSignalMap store since) s.signal_id
        with _ | g
      · rw [hlk] at hF
        exact ⟨s, hs, hlk, (Option.some_inj.mp hF).symm⟩
      · rw [hlk] at hF
        exact absurd hF (by simp)
    · rintro ⟨s, hs, hlk, rfl⟩
      refine ⟨(s.signal_id, s), List.mem_map.mpr ⟨s, hs, rfl⟩, ?_⟩
      dsimp only
      rw [hlk]
  have hdir : ∀ e, e ∈ (getChangesSince store cur since).changed_direction ↔
      ∃ s ∈ cur, ∃ g,
        dictLookup (historicalSignalMap store since) s.signal_id = some g ∧
        s.direction ≠ g.direction ∧
        e = ⟨s.signal_id, s.name, s.market, g.direction.value,
          s.direction.value⟩ := by
    intro e
    simp only [getChangesSince]
    rw [List.mem_filterMap, hcm]
    constructor
    · rintro ⟨p, hp, hF⟩
      rw [List.mem_map] at hp
      obtain ⟨s, hs, rfl⟩ := hp
      dsimp only at hF
      rcases hlk : dictLookup (historicalSignalMap store since) s.signal_id
        with _ | g
      · rw [hlk] at hF
        exact absurd hF (by simp)
      · rw [hlk] at hF
        dsimp only at hF
        by_cases hne : s.direction ≠ g.direction
        · rw [if_pos hne] at hF
          exact ⟨s, hs, g, hlk, hne, (Option.some_inj.mp hF).symm⟩
        · rw [if_neg hne] at hF
          exact absurd hF (by simp)
    · rintro ⟨s, hs, g, hlk, hne, rfl⟩
      refine ⟨(s.signal_id, s), List.mem_map.mpr ⟨s, hs, rfl⟩, ?_⟩
      dsimp only
      rw [hlk]
      dsimp only
      rw [if_pos hne]
  have hconf : ∀ e, e ∈ (getChangesSince store cur since).changed_confidence ↔
      ∃ s ∈ cur, ∃ g,
        dictLookup (historicalSignalMap store since) s.signal_id = some g ∧
        s.confidence ≠ g.confidence ∧
        e = ⟨s.signal_id, s.name, s.market, g.confidence.value,
          s.confidence.value⟩ := by
    intro e
    simp only [getChangesSince]
    rw [List.mem_filterMap, hcm]
    constructor
    · rintro ⟨p, hp, hF⟩
      rw [List.mem_map] at hp
      obtain ⟨s, hs, rfl⟩ := hp
      dsimp only at hF
      rcases hlk : dictLookup (historicalSignalMap store since) s.signal_id
        with _ | g
      · rw [hlk] at hF
        exact absurd hF (by simp)
      · rw [hlk] at hF
        dsimp only at hF
        by_cases hne : s.confidence ≠ g.confidence
        · rw [if_pos hne] at hF
          exact ⟨s, hs, g, hlk, hne, (Option.some_inj.mp hF).symm⟩
        · rw [if_neg hne] at hF
          exact absurd hF (by simp)
    · rintro ⟨s, hs, g, hlk, hne, rfl⟩
      refine ⟨(s.signal_id, s), List.mem_map.mpr ⟨s, hs, rfl⟩, ?_⟩
      dsimp only
      rw [hlk]
      dsimp only
      rw [if_pos hne]
  have hrem : ∀ e, e ∈ (getChangesSince store cur since).removed_signals ↔
      ∃ sid' g, (sid', g) ∈ historicalSignalMap store since ∧
        dictLookup (currentSignalMap cur) sid' = none ∧
        e = ⟨sid', g.name, g.market⟩ := by
    intro e
    simp only [getChangesSince]
    rw [List.mem_filterMap]
    constructor
    · rintro ⟨p, hp, hF⟩
      obtain ⟨sid', g⟩ := p
      dsimp only at hF
      rcases hlk : dictLookup (currentSignalMap cur) sid' with _ | s
      · rw [hlk] at hF
        exact ⟨sid', g, hp, hlk, (Option.some_inj.mp hF).symm⟩
      · rw [hlk] at hF
        exact absurd hF (by simp)
    · rintro ⟨sid', g, hp, hlk, rfl⟩
      refine ⟨(sid', g), hp, ?_⟩
      dsimp only
      rw [hlk]
  refine ⟨?_, ?_, ?_, ?_, ?_, ?_, ?_, ?_⟩
  · constructor
    · rintro ⟨e, he, hid⟩
      obtain ⟨s, hs, hlk, rfl⟩ := (hnew e).mp he
      refine ⟨⟨s, hs, hid⟩, ?_⟩
      rw [← historicalSignalMap_lookup_none store since hnds sid, ← hid]
      exact hlk
    · rintro ⟨⟨s, hs, hid⟩, hno⟩
      refine ⟨⟨s.signal_id, s.name, s.market, s.direction.value,
        s.confidence.value⟩, ?_, hid⟩
      refine (hnew _).mpr ⟨s, hs, ?_, rfl⟩
      rw [hid, historicalSignalMap_lookup_none store since hnds sid]
      exact hno
  · constructor
    · rintro ⟨e, he, hid⟩
      obtain ⟨sid', g, hp, hlk, rfl⟩ := (hrem e).mp he
      obtain ⟨snap, hmem, _⟩ :=
        (mem_historicalSignalMap store since hnds sid' g).mp hp
      subst hid
      refine ⟨⟨snap, hmem⟩, ?_⟩
      rintro ⟨s, hs, hsid⟩
      rw [currentSignalMap_lookup_none cur hndc] at hlk
      exact hlk s hs hsid
    · rintro ⟨⟨snap, hmem⟩, hno⟩
      refine ⟨⟨sid, snap.signal.name, snap.signal.market⟩, ?_, rfl⟩
      refine (hrem _).mpr ⟨sid, snap.signal, ?_, ?_, rfl⟩
      · exact (mem_historicalSignalMap store since hnds sid snap.signal).mpr
          ⟨snap, hmem, rfl⟩
      · rw [currentSignalMap_lookup_none cur hndc]
        intro s hs hc
        exact hno ⟨s, hs, hc⟩
  · constructor
    · rintro ⟨e, he, hid⟩
      obtain ⟨s, hs, g, hlk, hne, rfl⟩ := (hdir e).mp he
      obtain ⟨snap, hmem, hsig⟩ :=
        (historicalSignalMap_lookup store since hnds s.signal_id g).mp hlk
      refine ⟨s, snap, hs, hid, hid ▸ hmem, ?_⟩
      rw [hsig]
      exact hne
    · rintro ⟨s, snap, hs, hid, hmem, hne⟩
      refine ⟨⟨s.signal_id, s.name, s.market, snap.signal.direction.value,
        s.direction.value⟩, ?_, hid⟩
      refine (hdir _).mpr ⟨s, hs, snap.signal, ?_, hne, rfl⟩
      exact (historicalSignalMap_lookup store since hnds s.signal_id
        snap.signal).mpr ⟨snap, hid ▸ hmem, rfl⟩
  · intro e he
    obtain ⟨s, hs, g, hlk, hne, rfl⟩ := (hdir e).mp he
    obtain ⟨snap, hmem, hsig⟩ :=
      (historicalSignalMap_lookup store since hnds s.signal_id g).mp hlk
    exact ⟨s, snap, hs, rfl, hmem, by rw [hsig]; exact hne, by rw [hsig], rfl⟩
  · constructor
    · rintro ⟨e, he, hid⟩
      obtain ⟨s, hs, g, hlk, hne, rfl⟩ := (hconf e).mp he
      obtain ⟨snap, hmem, hsig⟩ :=
        (historicalSignalMap_lookup store since hnds s.signal_id g).mp hlk
      refine ⟨s, snap, hs, hid, hid ▸ hmem, ?_⟩
      rw [hsig]
      exact hne
    · rintro ⟨s, snap, hs, hid, hmem, hne⟩
      refine ⟨⟨s.signal_id, s.name, s.market, snap.signal.confidence.value,
        s.confidence.value⟩, ?_, hid⟩
      refine (hconf _).mpr ⟨s, hs, snap.signal, ?_, hne, rfl⟩
      exact (historicalSignalMap_lookup store since hnds s.signal_id
        snap.signal).mpr ⟨snap, hid ▸ hmem, rfl⟩
  · intro e he
    obtain ⟨s, hs, g, hlk, hne, rfl⟩ := (hconf e).mp he
    obtain ⟨snap, hmem, hsig⟩ :=
      (historicalSignalMap_lookup store since hnds s.signal_id g).mp hlk
    exact ⟨s, snap, hs, rfl, hmem, by rw [hsig]; exact hne, by rw [hsig], rfl⟩
  · intro s snap hs hid hmem hdir_eq hconf_eq
    refine ⟨?_, ?_, ?_, ?_⟩
    · rintro ⟨e, he, heid⟩
      obtain ⟨s', hs', hlk, rfl⟩ := (hnew e).mp he
      have hlk' : dictLookup (historicalSignalMap store since) sid = none :=
        heid ▸ hlk
      rw [historicalSignalMap_lookup_none store since hnds sid] at hlk'
      exact hlk' ⟨snap, hmem⟩
    · rintro ⟨e, he, heid⟩
      obtain ⟨s', hs', g, hlk, hne, rfl⟩ := (hdir e).mp he
      have heid' : s'.signal_id = sid := heid
      have hss : s' = s := hcurinj hs' hs (heid'.trans hid.symm)
      obtain ⟨snap', hmem', hsig'⟩ :=
        (historicalSignalMap_lookup store since hnds s'.signal_id g).mp hlk
      have : snap' = snap := hsnapinj snap' snap (heid' ▸ hmem') hmem
      rw [hss, ← hsig', this, ← hdir_eq] at hne
      exact hne rfl
    · rintro ⟨e, he, heid⟩
      obtain ⟨s', hs', g, hlk, hne, rfl⟩ := (hconf e).mp he
      have heid' : s'.signal_id = sid := heid
      have hss : s' = s := hcurinj hs' hs (heid'.trans hid.symm)
      obtain ⟨snap', hmem', hsig'⟩ :=
        (historicalSignalMap_lookup store since hnds s'.signal_id g).mp hlk
      have : snap' = snap := hsnapinj snap' snap (heid' ▸ hmem') hmem
      rw [hss, ← hsig', this, ← hconf_eq] at hne
      exact hne rfl
    · rintro ⟨e, he, heid⟩
      obtain ⟨sid', g, hp, hlk, rfl⟩ := (hrem e).mp he
      have heid' : sid' = sid := heid
      rw [heid', currentSignalMap_lookup_none cur hndc] at hlk
      exact hlk s hs hid
  · intro hnosnap
    have hhist_nil : historicalSignalMap store since = [] := by
      rw [historicalSignalMap_eq store since hnds]
      have : store.filter (fun e => decide (e.1.2 = since)) = [] := by
        rw [List.filter_eq_nil_iff]
        intro e he
        simpa using hnosnap e he
      rw [this]
      rfl
    refine ⟨?_, ?_, ?_, ?_⟩
    · have heq : (getChangesSince store cur since).new_signals =
          (currentSignalMap cur).map (fun p =>
            ⟨p.1, p.2.name, p.2.market, p.2.direction.value,
              p.2.confidence.value⟩ : String × Signal → NewSignalEntry) := by
        simp only [getChangesSince]
        refine filterMap_of_all_some _ _ _ ?_
        intro p _
        dsimp only
        rw [show dictLookup (historicalSignalMap store since) p.1 = none from by
          rw [hhist_nil]; rfl]
      rw [heq, hcm, List.map_map, List.map_map]
      rfl
    · simp only [getChangesSince]
      rw [List.filterMap_eq_nil_iff]
      intro p _
      rw [show dictLookup (historicalSignalMap store since) p.1 = none from by
        rw [hhist_nil]; rfl]
    · simp only [getChangesSince]
      rw [List.filterMap_eq_nil_iff]
      intro p _
      rw [show dictLookup (historicalSignalMap store since) p.1 = none from by
        rw [hhist_nil]; rfl]
    · simp only [getChangesSince]
      rw [hhist_nil]
      rfl

/-- Claim C2 (witness): identity "A" flipped direction and confidence since
day 5, "B" is new, "C" was removed; the characterization applies and the
buckets evaluate accordingly. -/
theorem c2_changes_since_buckets_witness :
    ((([sigABear, sigB] : List Signal).map Signal.signal_id).Nodup ∧
     (storeAC5.map Prod.fst).Nodup) ∧
    ((getChangesSince storeAC5 [sigABear, sigB] 5).new_signals.map
        NewSignalEntry.signal_id = ["B"] ∧
     (getChangesSince storeAC5 [sigABear, sigB] 5).changed_direction.map
        DirectionChangeEntry.signal_id = ["A"] ∧
     (getChangesSince storeAC5 [sigABear, sigB] 5).changed_confidence.map
        ConfidenceChangeEntry.signal_id = ["A"] ∧
     (getChangesSince storeAC5 [sigABear, sigB] 5).removed_signals.map
        RemovedSignalEntry.signal_id = ["C"]) ∧
    ((∃ e ∈ (getChangesSince storeAC5 [sigABear, sigB] 5).changed_direction,
        e.signal_id = "A") ↔
      (∃ s snap, s ∈ [sigABear, sigB] ∧ s.signal_id = "A" ∧
        (("A", (5 : Int)), snap) ∈ storeAC5 ∧
        s.direction ≠ snap.signal.direction)) :=
  ⟨⟨by decide, by decide⟩, ⟨by decide, by decide, by decide, by decide⟩,
   (c2_changes_since_buckets storeAC5 [sigABear, sigB] 5 "A"
     (by decide) (by decide)).2.2.1⟩





end Sentinel
